import Mathlib

/-!
Verification development for the WR calibration procedure
(`calibration/wrcalibration.py`).

The Python code is shallowly embedded:
* Python `str` values are modelled as `List Char` (`Str`); `str.split(sep)`
  with a one-character separator is `pysplit`.
* Python `float` values are modelled as exact rationals `ℚ`; the record
  format only ever prints floats with `"%.1f"` / `"%d"`, and `float()` is
  modelled on plain decimal literals (optional sign, digits, one optional
  dot, surrounding whitespace), the forms this program reads and writes.
* The calibration record `cfg_dict` is `CfgDict`; its two sub-dictionaries
  are association lists with Python-dict update semantics (`dictUpdate`:
  replace in place if the key exists, append otherwise).
* Device / instrument commands are recorded in an explicit trace (`Cmd`),
  external measurements are function parameters, and a raised Python
  exception is an `Option WRError` carried in `Outcome` together with the
  record state at the moment of the raise.
-/

namespace WRCal

/-- Python strings, modelled as their character sequence. -/
abbrev Str := List Char

/-- Auxiliary worker of `pysplit` carrying the current chunk (reversed). -/
def splitOnAux (c : Char) : Str → List Char → List Str
  | [], acc => [acc.reverse]
  | x :: xs, acc =>
    if x = c then acc.reverse :: splitOnAux c xs []
    else splitOnAux c xs (x :: acc)

/-- Python `s.split(c)` for a single-character separator: keeps empty
chunks, and splitting the empty string yields `[""]`. -/
def pysplit (s : Str) (c : Char) : List Str := splitOnAux c s []

/-- Python list indexing `l[i]` for a non-negative index: `none` means an
`IndexError`. -/
def pyIdx (l : List α) (i : ℕ) : Option α := l.get? i

/-- Digit value of a character, `none` on a non-digit. -/
def digitVal (c : Char) : Option ℕ :=
  if '0' ≤ c ∧ c ≤ '9' then some (c.toNat - '0'.toNat) else none

/-- Reads a digit string left to right, accumulating `acc`; `none` as soon
as a non-digit appears.  The empty string returns the accumulator. -/
def parseNatAcc : ℕ → Str → Option ℕ
  | acc, [] => some acc
  | acc, ch :: s =>
    match digitVal ch with
    | none => none
    | some d => parseNatAcc (acc * 10 + d) s

/-- Decimal digit string of a natural number (at least one digit). -/
def parseNat (s : Str) : Option ℕ :=
  if s = [] then none else parseNatAcc 0 s

/-- Decimal rendering of a natural number, fuel-based so that it reduces
definitionally; `fuel` must exceed the number of digits (callers pass
`n + 1`). -/
def natReprAux : ℕ → ℕ → Str
  | 0, _ => []
  | fuel + 1, n =>
    if n < 10 then [Nat.digitChar n]
    else natReprAux fuel (n / 10) ++ [Nat.digitChar (n % 10)]

/-- Decimal rendering of a natural number. -/
def natRepr (n : ℕ) : Str := natReprAux (n + 1) n

/-- Python `"%d" % z` for an integer: sign followed by digits. -/
def intRepr (z : ℤ) : Str :=
  if z < 0 then '-' :: natRepr z.natAbs else natRepr z.natAbs

/-- Whitespace recognised by `float()` (ASCII subset). -/
def isWsChar (c : Char) : Bool :=
  c = ' ' ∨ c = '\n' ∨ c = '\t' ∨ c = '\r'

/-- Strip leading and trailing whitespace. -/
def stripWs (s : Str) : Str :=
  ((s.dropWhile isWsChar).reverse.dropWhile isWsChar).reverse

/-- Unsigned part of `float()`: digits with at most one decimal point, at
least one digit present overall. -/
def parseUFloat (s : Str) : Option ℚ :=
  match pysplit s '.' with
  | [ip] =>
    match parseNat ip with
    | none => none
    | some n => some (n : ℚ)
  | [ip, fp] =>
    if ip = [] ∧ fp = [] then none
    else
      match parseNatAcc 0 ip with
      | none => none
      | some a =>
        match parseNatAcc 0 fp with
        | none => none
        | some b => some ((a : ℚ) + (b : ℚ) / 10 ^ fp.length)
  | _ => none

/-- Python `float(s)` on the decimal literals this program produces and
consumes: optional surrounding whitespace, optional sign, digits with an
optional single dot.  `none` models a raised `ValueError`. -/
def parseFloat (s : Str) : Option ℚ :=
  if (stripWs s).head? = some '-' then
    (parseUFloat ((stripWs s).drop 1)).map (fun q => -q)
  else if (stripWs s).head? = some '+' then parseUFloat ((stripWs s).drop 1)
  else parseUFloat (stripWs s)

/-- Truncation toward zero, the conversion Python's `"%d"` applies to a
float. -/
def pyTrunc (q : ℚ) : ℤ := if 0 ≤ q then ⌊q⌋ else ⌈q⌉

/-- Python `"%d" % q`. -/
def fmtd (q : ℚ) : Str := intRepr (pyTrunc q)

/-- Python `"%.1f" % q`: the value rounded to one decimal place, printed
with exactly one fractional digit.  (Ties cannot arise from binary floats;
the model rounds half away from zero via `round`.) -/
def fmt1 (q : ℚ) : Str :=
  (if round (10 * q) < 0 then ['-'] else []) ++
    natRepr ((round (10 * q)).natAbs / 10) ++
      '.' :: [Nat.digitChar ((round (10 * q)).natAbs % 10)]

/-- The value `"%.1f"` serialization preserves: `q` rounded to one
decimal. -/
def round1 (q : ℚ) : ℚ := ((round (10 * q) : ℤ) : ℚ) / 10

/-! ## The calibration record (`cfg_dict`) -/

/-- The in-memory calibration record.  `cfg_dict['fiber-latency']` always
holds exactly the two keys `delta1`, `delta2`, flattened here into two
fields; the other two blocks are Python dicts in insertion order. -/
structure CfgDict where
  delta1 : ℚ
  delta2 : ℚ
  asym : List (Str × ℚ)
  delay : List (Str × (ℚ × ℚ))
deriving DecidableEq

/-- Python dict store `d[k] = v`: replace the entry in place if the key is
present (keeping its position), append otherwise. -/
def dictUpdate : List (Str × α) → Str → α → List (Str × α)
  | [], k, v => [(k, v)]
  | p :: rest, k, v =>
    if p.1 = k then (k, v) :: rest else p :: dictUpdate rest k v

/-- Python dict read `d[k]` / membership test. -/
def pyLookup (l : List (Str × α)) (k : Str) : Option α :=
  (l.find? (fun p => p.1 = k)).map Prod.snd

/-! ## Exceptions, device commands, outcomes -/

/-- The exceptions the embedded operations can raise.  The first block are
the project's own kinds (`wrcexceptions`), the second are Python builtins
that the source lets escape. -/
inductive WRError
  | DeviceNotFound
  | WRDeviceNeeded
  | MeasurementInstrumentNeeded
  | FiberLatencyNeeded
  | FiberAsymmetryNeeded
  | MeasuringError
  | ParseError
  | IndexError
  | ValueError
  | ZeroDivisionError
  | UnboundLocalError
deriving DecidableEq

/-- Device / instrument commands, recorded in issue order.  `dev 0` is
`self.devices[0]` (master in the estimators, the unit under calibration in
`calibrate_device_port`), `dev 1` is `self.devices[1]` (slave). -/
inductive Cmd
  | eraseSfp (dev : ℕ)
  | writeSfp (dev : ℕ) (sn : Str) (port : ℤ) (dtx drx beta : ℚ)
  | loadSfp (dev : ℕ)
  | setSlaveport (dev : ℕ) (port : ℤ)
  | setMaster (dev : ℕ)
  | trackWait (dev : ℕ)
  | getRtt (dev : ℕ)
  | getPhyDelays (dev : ℕ)
  | meanTimeInterval
deriving DecidableEq

/-- Result of one operation: the exception raised (if any), the record as
left behind (Python keeps all mutations made before a raise), and the
device/instrument commands issued. -/
structure Outcome where
  err : Option WRError
  cfg : CfgDict
  trace : List Cmd
deriving DecidableEq

/-! ## `read_config` -/

/-- Processing of the tokens of one line under `flag == 2`
(fiber-asymmetry block), threading the flag because stripping a trailing
newline resets it to `0` for the following lines. -/
def asymTokens : ℕ → CfgDict → List Str → Option WRError × ℕ × CfgDict
  | flag, cfg, [] => (none, flag, cfg)
  | flag, cfg, tok :: rest =>
    if tok = ['\n'] then asymTokens flag cfg rest
    else
      match pysplit tok ':' with
      | [] => (some WRError.IndexError, flag, cfg)
      | [_] => (some WRError.IndexError, flag, cfg)
      | k :: v :: _ =>
        match v.getLast? with
        | none => (some WRError.IndexError, flag, cfg)
        | some c =>
          let v' := if c = '\n' then v.dropLast else v
          let flag' := if c = '\n' then 0 else flag
          match parseFloat v' with
          | none => (some WRError.ValueError, flag', cfg)
          | some q =>
            asymTokens flag' { cfg with asym := dictUpdate cfg.asym k q } rest

/-- Processing of the tokens of one line under `flag == 3` (port-delay
block). -/
def delayTokens : ℕ → CfgDict → List Str → Option WRError × ℕ × CfgDict
  | flag, cfg, [] => (none, flag, cfg)
  | flag, cfg, tok :: rest =>
    if tok = ['\n'] then delayTokens flag cfg rest
    else
      match pysplit tok ':' with
      | [] => (some WRError.IndexError, flag, cfg)
      | [_] => (some WRError.IndexError, flag, cfg)
      | k :: v :: _ =>
        match pysplit v ',' with
        | [] => (some WRError.IndexError, flag, cfg)
        | [_] => (some WRError.IndexError, flag, cfg)
        | dtxs :: drxs :: _ =>
          match drxs.getLast? with
          | none => (some WRError.IndexError, flag, cfg)
          | some c =>
            let drxs' := if c = '\n' then drxs.dropLast else drxs
            let flag' := if c = '\n' then 0 else flag
            match parseFloat dtxs with
            | none => (some WRError.ValueError, flag', cfg)
            | some a =>
              match parseFloat drxs' with
              | none => (some WRError.ValueError, flag', cfg)
              | some b =>
                delayTokens flag'
                  { cfg with delay := dictUpdate cfg.delay k (a, b) } rest

/-- Processing of the `flag == 1` payload line (fiber latency): the flag is
reset first, then both deltas are parsed and stored. -/
def latencyLine (cfg : CfgDict) (line : Str) : Option WRError × ℕ × CfgDict :=
  match pyIdx (pysplit line ' ') 0 with
  | none => (some WRError.IndexError, 0, cfg)
  | some t0 =>
    match pyIdx (pysplit t0 ':') 1 with
    | none => (some WRError.IndexError, 0, cfg)
    | some v0 =>
      match parseFloat v0 with
      | none => (some WRError.ValueError, 0, cfg)
      | some d1 =>
        match pyIdx (pysplit line ' ') 1 with
        | none => (some WRError.IndexError, 0, cfg)
        | some t1 =>
          match pyIdx (pysplit t1 ':') 1 with
          | none => (some WRError.IndexError, 0, cfg)
          | some v1 =>
            match parseFloat v1.dropLast with
            | none => (some WRError.ValueError, 0, cfg)
            | some d2 => (none, 0, { cfg with delta1 := d1, delta2 := d2 })

/-- One line of `read_config`'s loop body.  Comment lines are skipped, `@`
marker lines set the flag (leaving it unchanged on an unknown block name),
and payload lines are parsed according to the current flag. -/
def processLine (flag : ℕ) (cfg : CfgDict) (line : Str) :
    Option WRError × ℕ × CfgDict :=
  match line with
  | [] => (some WRError.IndexError, flag, cfg)  -- `line[0]` on an empty string
  | c0 :: _ =>
    if c0 = '#' then (none, flag, cfg)
    else if c0 = '@' then
      let key := (line.drop 1).dropLast  -- `line[1:-1]`
      (none,
        if key = "fiber-latency".toList then 1
        else if key = "fiber-asymmetry".toList then 2
        else if key = "port-delay".toList then 3
        else flag, cfg)
    else if flag = 1 then latencyLine cfg line
    else if flag = 2 then asymTokens flag cfg (pysplit line ' ')
    else if flag = 3 then delayTokens flag cfg (pysplit line ' ')
    else (none, flag, cfg)

/-- The line loop of `read_config`, stopping at the first raised
exception with the record as mutated so far. -/
def readLines : ℕ → CfgDict → List Str → Option WRError × CfgDict
  | _, cfg, [] => (none, cfg)
  | flag, cfg, line :: rest =>
    match processLine flag cfg line with
    | (some e, _, cfg') => (some e, cfg')
    | (none, flag', cfg') => readLines flag' cfg' rest

/-- `read_config`: the file is its list of lines, each line including its
trailing newline (as Python file iteration yields them).  The local
`cfg_dict = {}` of the source is dead code; parsing mutates
`self.cfg_dict` in place, line by line. -/
def read_config (cfg : CfgDict) (file : List Str) : Option WRError × CfgDict :=
  readLines 0 cfg file

/-! ## `write_config` -/

/-- The single fiber-asymmetry data line: one `"%s:%d "` write per entry,
then a newline. -/
def asymLine (l : List (Str × ℚ)) : Str :=
  (l.map (fun p => p.1 ++ ':' :: fmtd p.2 ++ [' '])).flatten ++ ['\n']

/-- The single port-delay data line: one `"%s:%d,%d "` write per entry,
then a newline. -/
def delayLine (l : List (Str × (ℚ × ℚ))) : Str :=
  (l.map (fun p => p.1 ++ ':' :: fmtd p.2.1 ++ ',' :: fmtd p.2.2 ++ [' '])).flatten
    ++ ['\n']

/-- `write_config`: the produced file as its list of lines.  `now` is the
`strftime` timestamp (newline-free), written behind `#`. -/
def write_config (now : Str) (cfg : CfgDict) : List Str :=
  [ '#' :: now ++ ['\n'],
    '@' :: "fiber-latency".toList ++ ['\n'],
    "delta1:".toList ++ fmt1 cfg.delta1 ++ ' ' ::
      ("delta2:".toList ++ fmt1 cfg.delta2 ++ ['\n']),
    '@' :: "fiber-asymmetry".toList ++ ['\n'],
    asymLine cfg.asym,
    '@' :: "port-delay".toList ++ ['\n'],
    delayLine cfg.delay ]

/-! ## `fiber_asymmetry` -/

/-- The record key `"%s-wr%d" % (sfp, port)`. -/
def wrKey (sfp : Str) (port : ℤ) : Str := sfp ++ "-wr".toList ++ intRepr port

/-- `fiber_asymmetry(n_samples, t_samples, port, sfp)`.

`ndev` is `len(self.devices)`, `instr` whether `self.instr` is set, and
`measure k` the value the instrument's `mean_time_interval` returns on its
`k`-th call (`k = 0` on fiber f1, `k = 1` on f2; the `f1+f2` entry of
`self.fibers` is skipped by the `continue`).  Division by an exactly zero
denominator is Python's `ZeroDivisionError`. -/
def fiber_asymmetry (ndev : ℕ) (instr : Bool) (cfg : CfgDict)
    (measure : ℕ → ℚ) (port : ℤ) (sfp : Str) : Outcome :=
  if ndev < 2 then ⟨some WRError.WRDeviceNeeded, cfg, []⟩
  else if instr = false then ⟨some WRError.MeasurementInstrumentNeeded, cfg, []⟩
  else if cfg.delta1 = 0 then ⟨some WRError.FiberLatencyNeeded, cfg, []⟩
  else
    let sfp_sn1 := if sfp = "blue".toList
      then "AXGE-1254-0531".toList else "AXGE-3454-0531".toList
    let sfp_sn2 := if sfp = "blue".toList
      then "AXGE-3454-0531".toList else "AXGE-1254-0531".toList
    let setup : List Cmd :=
      [Cmd.eraseSfp 0, Cmd.eraseSfp 1,
       Cmd.writeSfp 1 sfp_sn1 port 0 0 0, Cmd.writeSfp 0 sfp_sn2 port 0 0 0,
       Cmd.loadSfp 0, Cmd.loadSfp 1, Cmd.setSlaveport 1 port, Cmd.setMaster 0]
    -- fiber f1
    let raw1 := measure 0
    let adj1 := if sfp = "blue".toList then -raw1 else raw1
    let tr1 := setup ++ [Cmd.trackWait 1, Cmd.meanTimeInterval]
    if 1e-6 ≤ adj1 then ⟨some WRError.MeasuringError, cfg, tr1⟩
    else
      -- fiber f2
      let raw2 := measure 1
      let adj2 := if sfp = "blue".toList then -raw2 else raw2
      let tr2 := tr1 ++ [Cmd.trackWait 1, Cmd.meanTimeInterval]
      if 1e-6 ≤ adj2 then ⟨some WRError.MeasuringError, cfg, tr2⟩
      else
        let s0 := adj1 * 1e12
        let s1 := adj2 * 1e12
        let dif := s1 - s0
        let den := 0.5 * cfg.delta2 - dif
        if den = 0 then ⟨some WRError.ZeroDivisionError, cfg, tr2⟩
        else
          let alpha := 2 * dif / den
          if alpha + 2 = 0 then ⟨some WRError.ZeroDivisionError, cfg, tr2⟩
          else
            let an := 2 ^ 40 * ((alpha + 1) / (alpha + 2) - 0.5)
            let alpha_n := if sfp = "violet".toList then -an else an
            ⟨none,
              { cfg with asym := dictUpdate cfg.asym (wrKey sfp port) alpha_n },
              tr2⟩

/-! ## `calibrate_device_port` -/

/-- Coarse delay estimate
`0.5 * (mean_rtt - dtxm - drxm - bitslide - delta1)`. -/
def coarseDelay (mean_rtt dtxm drxm bitslide delta1 : ℚ) : ℚ :=
  0.5 * (mean_rtt - dtxm - drxm - bitslide - delta1)

/-- `get_phy_delays()` report: `(dtx, bitslide)` per node. -/
structure PhyDelays where
  master : ℚ × ℚ
  slave : ℚ × ℚ

/-- `(dtxs, drxs)` after `n` refinement updates starting from the coarse
values: each update subtracts the freshly measured skew (in ps) from
`dtxs` and adds it to `drxs`. -/
def updAfter (measure : ℕ → ℚ) (coarse : ℚ) : ℕ → ℚ × ℚ
  | 0 => (coarse, coarse)
  | n + 1 =>
    ((updAfter measure coarse n).1 - measure n * 1e12,
     (updAfter measure coarse n).2 + measure n * 1e12)

/-- The refinement `while` loop, structurally recursive on
`fuel = times - i` (so that the guard `i < times` is the fuel reaching
zero).  Returns the last assigned `(dtxs, drxs)` (`none` when the body
never ran and the locals stay unbound), the final iteration counter, and
the commands issued. -/
def refineLoopAux (measure : ℕ → ℚ) (sn : Str) (port : ℤ) (beta error : ℚ) :
    ℕ → ℕ → ℚ → ℚ → ℚ → Option (ℚ × ℚ) →
    Option (ℚ × ℚ) × ℕ × List Cmd
  | 0, i, _, _, _, last => (last, i, [])
  | fuel + 1, i, mean_skew, old_dtxs, old_drxs, last =>
    if error < |mean_skew| then
      let ms := measure i * 1e12
      let dtxs := old_dtxs - ms
      let drxs := old_drxs + ms
      let r := refineLoopAux measure sn port beta error fuel (i + 1) ms dtxs drxs
        (some (dtxs, drxs))
      (r.1, r.2.1,
        Cmd.trackWait 0 :: Cmd.meanTimeInterval :: Cmd.eraseSfp 0 ::
          Cmd.writeSfp 0 sn port dtxs drxs beta :: Cmd.loadSfp 0 :: r.2.2)
    else (last, i, [])

/-- `calibrate_device_port(error, n_samples, t_samples, port, sfp)`.

`measure k` is the `k`-th `mean_time_interval` reading (all inside the
refinement loop), `rtts k` the `k`-th `get_rtt` sample, `phy` the
`get_phy_delays` report after the RTT sampling.  The missing-asymmetry
check raises `FiberLatencyNeeded` exactly as the source does (its own
docstring promises `FiberAsymmetryNeeded` there).  A `none` from the
refinement loop leaves `dtxs`/`drxs` unbound, so the final store raises
`UnboundLocalError`. -/
def calibrate_device_port (ndev : ℕ) (instr : Bool) (cfg : CfgDict)
    (error : ℚ) (measure : ℕ → ℚ) (rtts : ℕ → ℚ) (n_samples : ℕ)
    (phy : PhyDelays) (port : ℤ) (sfp : Str) : Outcome :=
  if ndev < 1 then ⟨some WRError.WRDeviceNeeded, cfg, []⟩
  else if instr = false then ⟨some WRError.MeasurementInstrumentNeeded, cfg, []⟩
  else if cfg.delta1 = 0 then ⟨some WRError.FiberLatencyNeeded, cfg, []⟩
  else
    match pyLookup cfg.asym (wrKey sfp port) with
    | none => ⟨some WRError.FiberLatencyNeeded, cfg, []⟩
    | some beta =>
      let sfp_sn := if sfp = "blue".toList
        then "AXGE-1254-0531".toList else "AXGE-3454-0531".toList
      let setup1 : List Cmd :=
        [Cmd.eraseSfp 0, Cmd.writeSfp 0 sfp_sn port 0 0 beta, Cmd.loadSfp 0,
         Cmd.setSlaveport 0 port, Cmd.trackWait 0] ++
          List.replicate n_samples (Cmd.getRtt 0)
      if n_samples = 0 then
        -- `mean_rtt /= n_samples` with `n_samples == 0`
        ⟨some WRError.ZeroDivisionError, cfg, setup1⟩
      else
        let mean_rtt := ((List.range n_samples).map rtts).sum / (n_samples : ℚ)
        let coarse := coarseDelay mean_rtt phy.master.1 phy.master.2
          phy.slave.2 cfg.delta1
        let setup2 : List Cmd :=
          setup1 ++ [Cmd.getPhyDelays 0, Cmd.eraseSfp 0,
            Cmd.writeSfp 0 sfp_sn port coarse coarse beta, Cmd.loadSfp 0]
        let r := refineLoopAux measure sfp_sn port beta error 10 0 1e10
          coarse coarse none
        match r.1 with
        | none => ⟨some WRError.UnboundLocalError, cfg, setup2 ++ r.2.2⟩
        | some dd =>
          ⟨none, { cfg with delay := dictUpdate cfg.delay (wrKey sfp port) dd },
            setup2 ++ r.2.2⟩

/-! ## Class-scope session state (`WR_calibration`) -/

/-- An instance's attribute dictionary, restricted to the two session
fields the sharing claim is about.  `none` means the attribute is not in
the instance `__dict__`, so lookup falls through to the class. -/
structure PyObj where
  cfgRef : Option ℕ
  devRef : Option ℕ

/-- The interpreter state: the heap of dict / list objects and the class
attribute bindings of `WR_calibration` (`cfg_dict = {}` and `devices = []`
are evaluated once, at class creation). -/
structure PyWorld where
  cfgHeap : ℕ → CfgDict
  devHeap : ℕ → List Str
  classCfgRef : ℕ
  classDevRef : ℕ

/-- Attribute lookup `self.cfg_dict`: instance `__dict__` first, then the
class. -/
def resolveCfg (w : PyWorld) (o : PyObj) : ℕ := o.cfgRef.getD w.classCfgRef

/-- Attribute lookup `self.devices`. -/
def resolveDev (w : PyWorld) (o : PyObj) : ℕ := o.devRef.getD w.classDevRef

/-- In-place mutation of the dict object an attribute lookup resolved
to. -/
def setCfgAt (w : PyWorld) (r : ℕ) (c : CfgDict) : PyWorld :=
  { w with cfgHeap := fun r' => if r' = r then c else w.cfgHeap r' }

/-- `WR_calibration()`: a fresh instance binds nothing in its own
`__dict__`; `__init__` mutates the dict that `self.cfg_dict` resolves to,
storing fresh empty sub-dicts and zero deltas. -/
def init_instance (w : PyWorld) : PyWorld × PyObj :=
  let o : PyObj := ⟨none, none⟩
  (setCfgAt w (resolveCfg w o) ⟨0, 0, [], []⟩, o)

/-- `add_wr_device`: appends the constructed device to the list object
`self.devices` resolves to. -/
def add_wr_device (w : PyWorld) (o : PyObj) (d : Str) : PyWorld :=
  let r := resolveDev w o
  { w with devHeap := fun r' => if r' = r then w.devHeap r ++ [d] else w.devHeap r' }

/-- The final store of `fiber_latency`: writes both deltas into the dict
`self.cfg_dict` resolves to. -/
def store_fiber_latency (w : PyWorld) (o : PyObj) (d1 d2 : ℚ) : PyWorld :=
  let r := resolveCfg w o
  setCfgAt w r { w.cfgHeap r with delta1 := d1, delta2 := d2 }

/-- Read `self.cfg_dict['fiber-latency']['delta1']` through an instance. -/
def get_delta1 (w : PyWorld) (o : PyObj) : ℚ := (w.cfgHeap (resolveCfg w o)).delta1

/-- Read `self.devices` through an instance. -/
def get_devices (w : PyWorld) (o : PyObj) : List Str := w.devHeap (resolveDev w o)

/-- `"%d"` value as a rational again (what the record read re-imports). -/
def truncQ (v : ℚ) : ℚ := ((pyTrunc v : ℤ) : ℚ)

/-- Integer-truncated delay pair, as re-imported from the record file. -/
def truncPair (p : ℚ × ℚ) : ℚ × ℚ := (truncQ p.1, truncQ p.2)

/-- Sequential Python-dict merge of entries `l` (values through `f`) into
a base dict. -/
def mergeInto (f : β → α) (base : List (Str × α)) (l : List (Str × β)) :
    List (Str × α) :=
  l.foldl (fun acc p => dictUpdate acc p.1 (f p.2)) base

/-- Keys the record format can carry on a data line: nonempty, no
separator characters, and no character that would turn the start of the
line into a comment or block marker. -/
def goodKey (k : Str) : Prop :=
  k ≠ [] ∧ ∀ c ∈ k, c ≠ ' ' ∧ c ≠ ':' ∧ c ≠ '\n' ∧ c ≠ '#' ∧ c ≠ '@'

instance goodKeyDecidable (k : Str) : Decidable (goodKey k) :=
  decidable_of_iff
    (k ≠ [] ∧ ∀ c ∈ k, c ≠ ' ' ∧ c ≠ ':' ∧ c ≠ '\n' ∧ c ≠ '#' ∧ c ≠ '@')
    Iff.rfl

/-! ## Lemmas: `pysplit` -/

theorem splitOnAux_sepFree (c : Char) (s : Str) (h : c ∉ s) :
    ∀ acc, splitOnAux c s acc = [acc.reverse ++ s] := by
  induction s with
  | nil => intro acc; simp [splitOnAux]
  | cons x xs ih =>
    intro acc
    simp only [List.mem_cons, not_or] at h
    rw [splitOnAux, if_neg (fun hx => h.1 hx.symm), ih h.2]
    simp

theorem splitOnAux_sep (c : Char) (s t : Str) (h : c ∉ s) :
    ∀ acc, splitOnAux c (s ++ c :: t) acc =
      (acc.reverse ++ s) :: splitOnAux c t [] := by
  induction s with
  | nil => intro acc; simp [splitOnAux]
  | cons x xs ih =>
    intro acc
    simp only [List.mem_cons, not_or] at h
    rw [List.cons_append, splitOnAux, if_neg (fun hx => h.1 hx.symm), ih h.2]
    simp

theorem pysplit_sepFree {c : Char} {s : Str} (h : c ∉ s) : pysplit s c = [s] := by
  simpa using splitOnAux_sepFree c s h []

theorem pysplit_sep {c : Char} {s : Str} (t : Str) (h : c ∉ s) :
    pysplit (s ++ c :: t) c = s :: pysplit t c := by
  simpa [pysplit] using splitOnAux_sep c s t h []

/-! ## Lemmas: digit strings -/

theorem digitVal_digitChar {d : ℕ} (h : d < 10) :
    digitVal (Nat.digitChar d) = some d := by
  interval_cases d <;> decide

theorem parseNatAcc_append (s t : Str) :
    ∀ a, parseNatAcc a (s ++ t) = (parseNatAcc a s).bind fun b => parseNatAcc b t := by
  induction s with
  | nil => intro a; simp [parseNatAcc]
  | cons x xs ih =>
    intro a
    cases h : digitVal x <;> simp [parseNatAcc, h, ih]

theorem parseNatAcc_natReprAux :
    ∀ fuel n a, n < 10 ^ fuel →
      ∃ p : ℕ, 0 < p ∧ parseNatAcc a (natReprAux fuel n) = some (a * p + n) := by
  intro fuel
  induction fuel with
  | zero =>
    intro n a h
    interval_cases n
    exact ⟨1, one_pos, by simp [natReprAux, parseNatAcc]⟩
  | succ fuel ih =>
    intro n a h
    by_cases h10 : n < 10
    · exact ⟨10, by norm_num, by
        simp [natReprAux, h10, parseNatAcc, digitVal_digitChar h10]⟩
    · have hdiv : n / 10 < 10 ^ fuel := by
        rw [Nat.div_lt_iff_lt_mul (by norm_num)]
        calc n < 10 ^ (fuel + 1) := h
          _ = 10 ^ fuel * 10 := by ring
      obtain ⟨p, hp, hparse⟩ := ih (n / 10) a hdiv
      refine ⟨p * 10, by positivity, ?_⟩
      rw [natReprAux, if_neg h10, parseNatAcc_append, hparse]
      have hmod : n % 10 < 10 := Nat.mod_lt _ (by norm_num)
      simp only [Option.some_bind, parseNatAcc, digitVal_digitChar hmod]
      have h2 : 10 * (n / 10) + n % 10 = n := Nat.div_add_mod n 10
      congr 1
      calc (a * p + n / 10) * 10 + n % 10
          = a * (p * 10) + (10 * (n / 10) + n % 10) := by ring
        _ = a * (p * 10) + n := by rw [h2]

theorem natRepr_ne_nil (n : ℕ) : natRepr n ≠ [] := by
  rw [natRepr, natReprAux]
  split <;> simp

theorem parseNatAcc_natRepr (n : ℕ) : parseNatAcc 0 (natRepr n) = some n := by
  have h : n < 10 ^ (n + 1) :=
    lt_of_lt_of_le (Nat.lt_pow_self (by norm_num) n)
      (Nat.pow_le_pow_right (by norm_num) (Nat.le_succ n))
  obtain ⟨p, -, hparse⟩ := parseNatAcc_natReprAux (n + 1) n 0 h
  simpa [natRepr] using hparse

theorem parseNat_natRepr (n : ℕ) : parseNat (natRepr n) = some n := by
  rw [parseNat, if_neg (natRepr_ne_nil n)]
  exact parseNatAcc_natRepr n

theorem natReprAux_mem :
    ∀ fuel n, ∀ c ∈ natReprAux fuel n, ∃ d, d < 10 ∧ c = Nat.digitChar d := by
  intro fuel
  induction fuel with
  | zero => intro n c hc; simp [natReprAux] at hc
  | succ fuel ih =>
    intro n c hc
    rw [natReprAux] at hc
    by_cases h10 : n < 10
    · rw [if_pos h10] at hc
      simp at hc
      exact ⟨n, h10, hc⟩
    · rw [if_neg h10] at hc
      rcases List.mem_append.mp hc with h | h
      · exact ih _ c h
      · simp at h
        exact ⟨n % 10, Nat.mod_lt _ (by norm_num), h⟩

theorem natRepr_mem (n : ℕ) : ∀ c ∈ natRepr n, ∃ d, d < 10 ∧ c = Nat.digitChar d :=
  natReprAux_mem (n + 1) n

/-- The separator-avoidance facts about decimal digit characters used
throughout the (de)serialization proofs. -/
theorem digitChar_plain {d : ℕ} (h : d < 10) :
    Nat.digitChar d ≠ ' ' ∧ Nat.digitChar d ≠ ':' ∧ Nat.digitChar d ≠ ',' ∧
    Nat.digitChar d ≠ '\n' ∧ Nat.digitChar d ≠ '.' ∧ Nat.digitChar d ≠ '-' ∧
    Nat.digitChar d ≠ '+' ∧ Nat.digitChar d ≠ '#' ∧ Nat.digitChar d ≠ '@' ∧
    isWsChar (Nat.digitChar d) = false := by
  interval_cases d <;> decide

theorem natRepr_getLast (n : ℕ) :
    ∃ d, d < 10 ∧ (natRepr n).getLast? = some (Nat.digitChar d) := by
  rw [natRepr, natReprAux]
  by_cases h10 : n < 10
  · exact ⟨n, h10, by rw [if_pos h10]; rfl⟩
  · exact ⟨n % 10, Nat.mod_lt _ (by norm_num), by
      rw [if_neg h10, List.getLast?_concat]⟩

theorem intRepr_getLast (z : ℤ) :
    ∃ d, d < 10 ∧ (intRepr z).getLast? = some (Nat.digitChar d) := by
  obtain ⟨d, hd, hlast⟩ := natRepr_getLast z.natAbs
  refine ⟨d, hd, ?_⟩
  rw [intRepr]
  split
  · rw [show '-' :: natRepr z.natAbs = ['-'] ++ natRepr z.natAbs from rfl,
      List.getLast?_append_of_ne_nil _ (natRepr_ne_nil _)]
    exact hlast
  · exact hlast

theorem intRepr_mem (z : ℤ) :
    ∀ c ∈ intRepr z, c = '-' ∨ ∃ d, d < 10 ∧ c = Nat.digitChar d := by
  intro c hc
  rw [intRepr] at hc
  split at hc
  · rcases List.mem_cons.mp hc with h | h
    · exact Or.inl h
    · exact Or.inr (natRepr_mem _ c h)
  · exact Or.inr (natRepr_mem _ c hc)

theorem fmt1_mem (q : ℚ) :
    ∀ c ∈ fmt1 q, c = '-' ∨ c = '.' ∨ ∃ d, d < 10 ∧ c = Nat.digitChar d := by
  intro c hc
  rw [fmt1] at hc
  rcases List.mem_append.mp hc with h | h
  · rcases List.mem_append.mp h with h | h
    · left
      split at h <;> simpa using h
    · exact Or.inr (Or.inr (natRepr_mem _ c h))
  · rcases List.mem_cons.mp h with h | h
    · exact Or.inr (Or.inl h)
    · simp at h
      exact Or.inr (Or.inr ⟨_, Nat.mod_lt _ (by norm_num), h⟩)

/-! ## Lemmas: `parseFloat` of the emitted formats -/

theorem dropWhile_eq_self_of (l : Str) (h : ∀ c ∈ l, isWsChar c = false) :
    l.dropWhile isWsChar = l := by
  cases l with
  | nil => rfl
  | cons x xs =>
    rw [List.dropWhile_cons, if_neg (by simp [h x (List.mem_cons_self x xs)])]

theorem stripWs_eq_self (s : Str) (h : ∀ c ∈ s, isWsChar c = false) :
    stripWs s = s := by
  rw [stripWs, dropWhile_eq_self_of s h,
    dropWhile_eq_self_of _ (fun c hc => h c (List.mem_reverse.mp hc)), List.reverse_reverse]

theorem parseUFloat_natRepr (n : ℕ) : parseUFloat (natRepr n) = some (n : ℚ) := by
  have hsp : pysplit (natRepr n) '.' = [natRepr n] :=
    pysplit_sepFree (fun hc => by
      obtain ⟨d, hd, hcd⟩ := natRepr_mem n '.' hc
      exact (digitChar_plain hd).2.2.2.2.1 hcd.symm)
  rw [parseUFloat, hsp]
  simp [parseNat_natRepr]

theorem parseUFloat_dec (a b : ℕ) (hb : b < 10) :
    parseUFloat (natRepr a ++ '.' :: [Nat.digitChar b]) =
      some ((a : ℚ) + (b : ℚ) / 10) := by
  have hnd : '.' ∉ natRepr a := fun hc => by
    obtain ⟨d, hd, hcd⟩ := natRepr_mem a '.' hc
    exact (digitChar_plain hd).2.2.2.2.1 hcd.symm
  have hnd2 : '.' ∉ [Nat.digitChar b] := by
    simp
    exact fun hc => (digitChar_plain hb).2.2.2.2.1 hc.symm
  have hsp : pysplit (natRepr a ++ '.' :: [Nat.digitChar b]) '.' =
      [natRepr a, [Nat.digitChar b]] := by
    rw [pysplit_sep _ hnd, pysplit_sepFree hnd2]
  have h1 : parseNatAcc 0 [Nat.digitChar b] = some b := by
    simp [parseNatAcc, digitVal_digitChar hb]
  rw [parseUFloat, hsp]
  simp only [parseNatAcc_natRepr, h1, List.length_cons, List.length_nil]
  rw [if_neg (by simp)]
  norm_num

theorem parseFloat_cons_of_plain (s : Str)
    (hws : ∀ c ∈ s, isWsChar c = false)
    (h1 : s.head? ≠ some '-') (h2 : s.head? ≠ some '+') :
    parseFloat s = parseUFloat s := by
  rw [parseFloat, stripWs_eq_self s hws, if_neg h1, if_neg h2]

theorem parseFloat_neg_of (s : Str) (hws : ∀ c ∈ s, isWsChar c = false) :
    parseFloat ('-' :: s) = (parseUFloat s).map (fun q => -q) := by
  have hws' : ∀ c ∈ '-' :: s, isWsChar c = false := by
    intro c hc
    rcases List.mem_cons.mp hc with h | h
    · subst h; decide
    · exact hws c h
  rw [parseFloat, stripWs_eq_self _ hws']
  simp

theorem natRepr_not_ws (n : ℕ) : ∀ c ∈ natRepr n, isWsChar c = false := by
  intro c hc
  obtain ⟨d, hd, hcd⟩ := natRepr_mem n c hc
  subst hcd
  exact (digitChar_plain hd).2.2.2.2.2.2.2.2.2

theorem natRepr_head_digit (n : ℕ) :
    ∃ d, d < 10 ∧ (natRepr n).head? = some (Nat.digitChar d) := by
  cases hrep : natRepr n with
  | nil => exact absurd hrep (natRepr_ne_nil n)
  | cons c cs =>
    obtain ⟨d, hd, hcd⟩ := natRepr_mem n c (hrep ▸ List.mem_cons_self c cs)
    exact ⟨d, hd, by simp [hrep, hcd]⟩

theorem parseFloat_natRepr (n : ℕ) : parseFloat (natRepr n) = some (n : ℚ) := by
  obtain ⟨d, hd, hhead⟩ := natRepr_head_digit n
  rw [parseFloat_cons_of_plain _ (natRepr_not_ws n)
      (by rw [hhead]; simp; exact fun hc => (digitChar_plain hd).2.2.2.2.2.1 hc)
      (by rw [hhead]; simp; exact fun hc => (digitChar_plain hd).2.2.2.2.2.2.1 hc)]
  exact parseUFloat_natRepr n

theorem cast_natAbs_rat (z : ℤ) (hz : 0 ≤ z) : ((z.natAbs : ℕ) : ℚ) = (z : ℚ) := by
  have h : ((z.natAbs : ℕ) : ℤ) = z := Int.natAbs_of_nonneg hz
  calc ((z.natAbs : ℕ) : ℚ) = (((z.natAbs : ℕ) : ℤ) : ℚ) := (Int.cast_natCast _).symm
    _ = ((z : ℤ) : ℚ) := by rw [h]

theorem cast_natAbs_rat_neg (z : ℤ) (hz : z < 0) :
    ((z.natAbs : ℕ) : ℚ) = -(z : ℚ) := by
  have h : ((z.natAbs : ℕ) : ℤ) = -z := by
    rw [← Int.natAbs_neg]
    exact Int.natAbs_of_nonneg (by omega)
  calc ((z.natAbs : ℕ) : ℚ) = (((z.natAbs : ℕ) : ℤ) : ℚ) := (Int.cast_natCast _).symm
    _ = ((-z : ℤ) : ℚ) := by rw [h]
    _ = -(z : ℚ) := Int.cast_neg z

theorem parseFloat_intRepr (z : ℤ) : parseFloat (intRepr z) = some (z : ℚ) := by
  by_cases hz : z < 0
  · rw [intRepr, if_pos hz, parseFloat_neg_of _ (natRepr_not_ws _),
      parseUFloat_natRepr, Option.map_some']
    rw [cast_natAbs_rat_neg z hz]
    simp
  · rw [intRepr, if_neg hz, parseFloat_natRepr, cast_natAbs_rat z (le_of_not_lt hz)]

theorem parseFloat_fmtd (q : ℚ) : parseFloat (fmtd q) = some (truncQ q) :=
  parseFloat_intRepr (pyTrunc q)

theorem parseUFloat_fmt1_body (k : ℕ) :
    parseUFloat (natRepr (k / 10) ++ '.' :: [Nat.digitChar (k % 10)]) =
      some ((k : ℚ) / 10) := by
  rw [parseUFloat_dec _ _ (Nat.mod_lt _ (by norm_num))]
  congr 1
  have h2 : 10 * (k / 10) + k % 10 = k := Nat.div_add_mod k 10
  have h3 : (k : ℚ) = 10 * ((k / 10 : ℕ) : ℚ) + ((k % 10 : ℕ) : ℚ) := by
    exact_mod_cast h2.symm
  rw [h3]
  ring

theorem fmt1_body_not_ws (k : ℕ) :
    ∀ c ∈ natRepr (k / 10) ++ '.' :: [Nat.digitChar (k % 10)],
      isWsChar c = false := by
  intro c hc
  rcases List.mem_append.mp hc with h | h
  · exact natRepr_not_ws _ c h
  · rcases List.mem_cons.mp h with h | h
    · subst h; decide
    · simp at h
      subst h
      exact (digitChar_plain (Nat.mod_lt k (by norm_num))).2.2.2.2.2.2.2.2.2

theorem parseFloat_fmt1 (q : ℚ) : parseFloat (fmt1 q) = some (round1 q) := by
  rw [fmt1, round1]
  by_cases hm : round (10 * q) < 0
  · rw [if_pos hm, List.singleton_append, List.cons_append,
      parseFloat_neg_of _ (fmt1_body_not_ws _), parseUFloat_fmt1_body,
      Option.map_some']
    rw [cast_natAbs_rat_neg _ hm]
    congr 1
    ring
  · rw [if_neg hm, List.nil_append]
    obtain ⟨d, hd, hhead⟩ := natRepr_head_digit ((round (10 * q)).natAbs / 10)
    have hhead' : (natRepr ((round (10 * q)).natAbs / 10) ++
        '.' :: [Nat.digitChar ((round (10 * q)).natAbs % 10)]).head? =
          some (Nat.digitChar d) := by
      cases hrep : natRepr ((round (10 * q)).natAbs / 10) with
      | nil => exact absurd hrep (natRepr_ne_nil _)
      | cons c cs =>
        rw [hrep] at hhead
        simp at hhead
        simp [hrep, hhead]
    rw [parseFloat_cons_of_plain _ (fmt1_body_not_ws _)
        (by rw [hhead']; simp; exact fun hc => (digitChar_plain hd).2.2.2.2.2.1 hc)
        (by rw [hhead']; simp; exact fun hc => (digitChar_plain hd).2.2.2.2.2.2.1 hc),
      parseUFloat_fmt1_body]
    rw [cast_natAbs_rat _ (le_of_not_lt hm)]

/-! ## Lemmas: the dict model -/

theorem pyLookup_nil (k : Str) : pyLookup ([] : List (Str × α)) k = none := rfl

theorem pyLookup_cons_pos (p : Str × α) (l : List (Str × α)) (k : Str)
    (h : p.1 = k) : pyLookup (p :: l) k = some p.2 := by
  rw [pyLookup, List.find?_cons_of_pos _ (by simp [h]), Option.map_some']

theorem pyLookup_cons_neg (p : Str × α) (l : List (Str × α)) (k : Str)
    (h : p.1 ≠ k) : pyLookup (p :: l) k = pyLookup l k := by
  rw [pyLookup, List.find?_cons_of_neg _ (by simp [h])]
  rfl

theorem pyLookup_dictUpdate_self (l : List (Str × α)) (k : Str) (v : α) :
    pyLookup (dictUpdate l k v) k = some v := by
  induction l with
  | nil => exact pyLookup_cons_pos _ _ _ rfl
  | cons p rest ih =>
    by_cases hp : p.1 = k
    · rw [dictUpdate, if_pos hp, pyLookup_cons_pos _ _ _ rfl]
    · rw [dictUpdate, if_neg hp, pyLookup_cons_neg _ _ _ hp]
      exact ih

theorem pyLookup_dictUpdate_ne (l : List (Str × α)) (k k' : Str) (v : α)
    (h : k' ≠ k) : pyLookup (dictUpdate l k v) k' = pyLookup l k' := by
  induction l with
  | nil => rw [dictUpdate, pyLookup_cons_neg _ _ _ (fun he => h he.symm)]
  | cons p rest ih =>
    by_cases hp : p.1 = k
    · have hpk' : p.1 ≠ k' := fun he => h (hp.symm.trans he).symm
      rw [dictUpdate, if_pos hp, pyLookup_cons_neg _ _ _ (fun he => h he.symm),
        pyLookup_cons_neg _ _ _ hpk']
    · rw [dictUpdate, if_neg hp]
      by_cases hp' : p.1 = k'
      · rw [pyLookup_cons_pos _ _ _ hp', pyLookup_cons_pos _ _ _ hp']
      · rw [pyLookup_cons_neg _ _ _ hp', pyLookup_cons_neg _ _ _ hp']
        exact ih

theorem mergeInto_nil (f : β → α) (base : List (Str × α)) :
    mergeInto f base [] = base := rfl

theorem mergeInto_cons (f : β → α) (base : List (Str × α)) (p : Str × β)
    (l : List (Str × β)) :
    mergeInto f base (p :: l) = mergeInto f (dictUpdate base p.1 (f p.2)) l := rfl

theorem pyLookup_mergeInto_not_mem (f : β → α) (l : List (Str × β)) :
    ∀ base k, k ∉ l.map Prod.fst →
      pyLookup (mergeInto f base l) k = pyLookup base k := by
  induction l with
  | nil => intro base k _; rfl
  | cons p rest ih =>
    intro base k hk
    simp only [List.map_cons, List.mem_cons, not_or] at hk
    rw [mergeInto_cons, ih _ k hk.2, pyLookup_dictUpdate_ne _ _ _ _ hk.1]

theorem pyLookup_mergeInto_mem (f : β → α) (l : List (Str × β)) :
    ∀ base k v, (l.map Prod.fst).Nodup → (k, v) ∈ l →
      pyLookup (mergeInto f base l) k = some (f v) := by
  induction l with
  | nil => intro base k v _ h; simp at h
  | cons p rest ih =>
    intro base k v hnd hkv
    rw [List.map_cons, List.nodup_cons] at hnd
    rcases List.mem_cons.mp hkv with h | h
    · rw [mergeInto_cons]
      have hk : p.1 = k := by rw [← h]
      have hv : p.2 = v := by rw [← h]
      rw [hk] at hnd ⊢
      rw [hv]
      rw [pyLookup_mergeInto_not_mem f rest _ k hnd.1,
        pyLookup_dictUpdate_self]
    · exact mergeInto_cons f base p rest ▸ ih _ k v hnd.2 h

/-! ## Lemmas: reading back a written record -/

theorem intRepr_ne_nil (z : ℤ) : intRepr z ≠ [] := by
  rw [intRepr]
  split
  · simp
  · exact natRepr_ne_nil _

theorem fmtd_plain (q : ℚ) :
    ∀ c ∈ fmtd q, c ≠ ' ' ∧ c ≠ ':' ∧ c ≠ ',' ∧ c ≠ '\n' ∧ isWsChar c = false := by
  intro c hc
  rcases intRepr_mem _ c hc with h | ⟨d, hd, h⟩
  · subst h
    exact ⟨by decide, by decide, by decide, by decide, by decide⟩
  · subst h
    have hp := digitChar_plain hd
    exact ⟨hp.1, hp.2.1, hp.2.2.1, hp.2.2.2.1, hp.2.2.2.2.2.2.2.2.2⟩

theorem fmt1_plain (q : ℚ) :
    ∀ c ∈ fmt1 q, c ≠ ' ' ∧ c ≠ ':' ∧ c ≠ '\n' := by
  intro c hc
  rcases fmt1_mem q c hc with h | h | ⟨d, hd, h⟩
  · subst h; exact ⟨by decide, by decide, by decide⟩
  · subst h; exact ⟨by decide, by decide, by decide⟩
  · subst h
    have hp := digitChar_plain hd
    exact ⟨hp.1, hp.2.1, hp.2.2.2.1⟩

theorem fmtd_getLast (q : ℚ) :
    ∃ d, d < 10 ∧ (fmtd q).getLast? = some (Nat.digitChar d) :=
  intRepr_getLast (pyTrunc q)

/-- Processing one well-formed `key:value` asymmetry token updates the
dict and keeps the parser in the asymmetry block. -/
theorem asymTokens_cons_good (cfg : CfgDict) (p : Str × ℚ) (rest : List Str)
    (hkey : goodKey p.1) :
    asymTokens 2 cfg ((p.1 ++ ':' :: fmtd p.2) :: rest) =
      asymTokens 2 { cfg with asym := dictUpdate cfg.asym p.1 (truncQ p.2) } rest := by
  obtain ⟨c, k', hk0⟩ : ∃ c k', p.1 = c :: k' := by
    cases hp1 : p.1 with
    | nil => exact absurd hp1 hkey.1
    | cons c k' => exact ⟨c, k', rfl⟩
  have hcmem : c ∈ p.1 := by rw [hk0]; exact List.mem_cons_self c k'
  have htok : p.1 ++ ':' :: fmtd p.2 ≠ ['\n'] := by
    rw [hk0, List.cons_append]
    intro h
    injection h with h1 h2
    exact (hkey.2 c hcmem).2.2.1 h1
  have hknc : ':' ∉ p.1 := fun hc => (hkey.2 ':' hc).2.1 rfl
  have hvnc : ':' ∉ fmtd p.2 := fun hc => (fmtd_plain _ ':' hc).2.1 rfl
  have hsplit : pysplit (p.1 ++ ':' :: fmtd p.2) ':' = [p.1, fmtd p.2] := by
    rw [pysplit_sep _ hknc, pysplit_sepFree hvnc]
  obtain ⟨d, hd, hlast⟩ := fmtd_getLast p.2
  have hdnl : Nat.digitChar d ≠ '\n' := (digitChar_plain hd).2.2.2.1
  rw [asymTokens, if_neg htok, hsplit]
  simp only [hlast, hdnl, if_neg, if_false, ite_false, parseFloat_fmtd]

/-- The trailing newline token of a data line is skipped and ends the
token loop. -/
theorem asymTokens_newline (cfg : CfgDict) :
    asymTokens 2 cfg [['\n']] = (none, 2, cfg) := rfl

theorem asymTokens_line (l : List (Str × ℚ)) :
    ∀ cfg, (∀ p ∈ l, goodKey p.1) →
      asymTokens 2 cfg ((l.map (fun p => p.1 ++ ':' :: fmtd p.2)) ++ [['\n']]) =
        (none, 2, { cfg with asym := mergeInto truncQ cfg.asym l }) := by
  induction l with
  | nil => intro cfg _; rfl
  | cons p rest ih =>
    intro cfg hk
    rw [List.map_cons, List.cons_append,
      asymTokens_cons_good cfg p _ (hk p (List.mem_cons_self p rest)),
      ih _ (fun q hq => hk q (List.mem_cons_of_mem p hq))]
    rfl

/-- Processing one well-formed `key:dtx,drx` port-delay token. -/
theorem delayTokens_cons_good (cfg : CfgDict) (p : Str × (ℚ × ℚ)) (rest : List Str)
    (hkey : goodKey p.1) :
    delayTokens 3 cfg ((p.1 ++ ':' :: (fmtd p.2.1 ++ ',' :: fmtd p.2.2)) :: rest) =
      delayTokens 3
        { cfg with delay := dictUpdate cfg.delay p.1 (truncQ p.2.1, truncQ p.2.2) }
        rest := by
  obtain ⟨c, k', hk0⟩ : ∃ c k', p.1 = c :: k' := by
    cases hp1 : p.1 with
    | nil => exact absurd hp1 hkey.1
    | cons c k' => exact ⟨c, k', rfl⟩
  have hcmem : c ∈ p.1 := by rw [hk0]; exact List.mem_cons_self c k'
  have htok : p.1 ++ ':' :: (fmtd p.2.1 ++ ',' :: fmtd p.2.2) ≠ ['\n'] := by
    rw [hk0, List.cons_append]
    intro h
    injection h with h1 h2
    exact (hkey.2 c hcmem).2.2.1 h1
  have hknc : ':' ∉ p.1 := fun hc => (hkey.2 ':' hc).2.1 rfl
  have hvnc : ':' ∉ fmtd p.2.1 ++ ',' :: fmtd p.2.2 := by
    intro hc
    rcases List.mem_append.mp hc with h | h
    · exact (fmtd_plain _ ':' h).2.1 rfl
    · rcases List.mem_cons.mp h with h | h
      · exact absurd h.symm (by decide)
      · exact (fmtd_plain _ ':' h).2.1 rfl
  have hsplit : pysplit (p.1 ++ ':' :: (fmtd p.2.1 ++ ',' :: fmtd p.2.2)) ':' =
      [p.1, fmtd p.2.1 ++ ',' :: fmtd p.2.2] := by
    rw [pysplit_sep _ hknc, pysplit_sepFree hvnc]
  have hd1nc : ',' ∉ fmtd p.2.1 := fun hc => (fmtd_plain _ ',' hc).2.2.1 rfl
  have hd2nc : ',' ∉ fmtd p.2.2 := fun hc => (fmtd_plain _ ',' hc).2.2.1 rfl
  have hsplit2 : pysplit (fmtd p.2.1 ++ ',' :: fmtd p.2.2) ',' =
      [fmtd p.2.1, fmtd p.2.2] := by
    rw [pysplit_sep _ hd1nc, pysplit_sepFree hd2nc]
  obtain ⟨d, hd, hlast⟩ := fmtd_getLast p.2.2
  have hdnl : Nat.digitChar d ≠ '\n' := (digitChar_plain hd).2.2.2.1
  rw [delayTokens, if_neg htok, hsplit]
  simp only [hsplit2, hlast, hdnl, if_neg, if_false, ite_false, parseFloat_fmtd]

theorem delayTokens_line (l : List (Str × (ℚ × ℚ))) :
    ∀ cfg, (∀ p ∈ l, goodKey p.1) →
      delayTokens 3 cfg
        ((l.map (fun p => p.1 ++ ':' :: (fmtd p.2.1 ++ ',' :: fmtd p.2.2))) ++ [['\n']]) =
        (none, 3, { cfg with delay := mergeInto truncPair cfg.delay l }) := by
  induction l with
  | nil => intro cfg _; rfl
  | cons p rest ih =>
    intro cfg hk
    rw [List.map_cons, List.cons_append,
      delayTokens_cons_good cfg p _ (hk p (List.mem_cons_self p rest)),
      ih _ (fun q hq => hk q (List.mem_cons_of_mem p hq))]
    rfl

/-- Splitting a written data line at blanks recovers the tokens plus the
trailing newline token. -/
theorem pysplit_tokens_line (ts : List Str) (hts : ∀ t ∈ ts, ' ' ∉ t) :
    pysplit ((ts.map (fun t => t ++ [' '])).flatten ++ ['\n']) ' ' =
      ts ++ [['\n']] := by
  induction ts with
  | nil => rfl
  | cons t rest ih =>
    have heq : ((List.map (fun t => t ++ [' ']) (t :: rest)).flatten ++ ['\n']) =
        t ++ ' ' :: ((List.map (fun t => t ++ [' ']) rest).flatten ++ ['\n']) := by
      simp
    rw [heq, pysplit_sep _ (hts t (List.mem_cons_self t rest)),
      ih (fun u hu => hts u (List.mem_cons_of_mem t hu))]
    rfl

theorem asymLine_eq (l : List (Str × ℚ)) :
    asymLine l =
      ((l.map (fun p => p.1 ++ ':' :: fmtd p.2)).map (fun t => t ++ [' '])).flatten
        ++ ['\n'] := by
  rw [asymLine, List.map_map]
  have h : (fun p : Str × ℚ => p.1 ++ ':' :: fmtd p.2 ++ [' ']) =
      ((fun t => t ++ [' ']) ∘ fun p : Str × ℚ => p.1 ++ ':' :: fmtd p.2) := by
    funext p
    simp [Function.comp]
  rw [h]

theorem delayLine_eq (l : List (Str × (ℚ × ℚ))) :
    delayLine l =
      ((l.map (fun p => p.1 ++ ':' :: (fmtd p.2.1 ++ ',' :: fmtd p.2.2))).map
        (fun t => t ++ [' '])).flatten ++ ['\n'] := by
  rw [delayLine, List.map_map]
  have h : (fun p : Str × (ℚ × ℚ) => p.1 ++ ':' :: fmtd p.2.1 ++ ',' :: fmtd p.2.2 ++ [' ']) =
      ((fun t => t ++ [' ']) ∘
        fun p : Str × (ℚ × ℚ) => p.1 ++ ':' :: (fmtd p.2.1 ++ ',' :: fmtd p.2.2)) := by
    funext p
    simp [Function.comp]
  rw [h]

theorem asym_token_no_space (p : Str × ℚ) (hkey : goodKey p.1) :
    ' ' ∉ p.1 ++ ':' :: fmtd p.2 := by
  intro hc
  rcases List.mem_append.mp hc with h | h
  · exact (hkey.2 ' ' h).1 rfl
  · rcases List.mem_cons.mp h with h | h
    · exact absurd h.symm (by decide)
    · exact (fmtd_plain _ ' ' h).1 rfl

theorem delay_token_no_space (p : Str × (ℚ × ℚ)) (hkey : goodKey p.1) :
    ' ' ∉ p.1 ++ ':' :: (fmtd p.2.1 ++ ',' :: fmtd p.2.2) := by
  intro hc
  rcases List.mem_append.mp hc with h | h
  · exact (hkey.2 ' ' h).1 rfl
  · rcases List.mem_cons.mp h with h | h
    · exact absurd h.symm (by decide)
    · rcases List.mem_append.mp h with h | h
      · exact (fmtd_plain _ ' ' h).1 rfl
      · rcases List.mem_cons.mp h with h | h
        · exact absurd h.symm (by decide)
        · exact (fmtd_plain _ ' ' h).1 rfl

/-- The comment line written first is skipped whatever the timestamp. -/
theorem processLine_comment (flag : ℕ) (cfg : CfgDict) (now : Str) :
    processLine flag cfg ('#' :: now ++ ['\n']) = (none, flag, cfg) := rfl

theorem processLine_marker_latency (flag : ℕ) (cfg : CfgDict) :
    processLine flag cfg ('@' :: "fiber-latency".toList ++ ['\n']) =
      (none, 1, cfg) := rfl

theorem processLine_marker_asym (flag : ℕ) (cfg : CfgDict) :
    processLine flag cfg ('@' :: "fiber-asymmetry".toList ++ ['\n']) =
      (none, 2, cfg) := rfl

theorem processLine_marker_delay (flag : ℕ) (cfg : CfgDict) :
    processLine flag cfg ('@' :: "port-delay".toList ++ ['\n']) =
      (none, 3, cfg) := rfl

/-- Reading back the written fiber-latency data line restores the
1-decimal serialized deltas. -/
theorem latencyLine_write (cfg : CfgDict) (d1 d2 : ℚ) :
    latencyLine cfg
      ("delta1:".toList ++ fmt1 d1 ++ ' ' ::
        ("delta2:".toList ++ fmt1 d2 ++ ['\n'])) =
      (none, 0, { cfg with delta1 := round1 d1, delta2 := round1 d2 }) := by
  have hs1 : ' ' ∉ "delta1:".toList ++ fmt1 d1 := by
    intro hc
    rcases List.mem_append.mp hc with h | h
    · revert h; decide
    · exact (fmt1_plain _ ' ' h).1 rfl
  have hsp : pysplit
      ("delta1:".toList ++ fmt1 d1 ++ ' ' ::
        ("delta2:".toList ++ fmt1 d2 ++ ['\n'])) ' ' =
      ("delta1:".toList ++ fmt1 d1) ::
        pysplit ("delta2:".toList ++ fmt1 d2 ++ ['\n']) ' ' := by
    rw [show "delta1:".toList ++ fmt1 d1 ++ ' ' ::
        ("delta2:".toList ++ fmt1 d2 ++ ['\n']) =
        ("delta1:".toList ++ fmt1 d1) ++ ' ' ::
          ("delta2:".toList ++ fmt1 d2 ++ ['\n']) from by simp]
    exact pysplit_sep _ hs1
  have hs2 : ' ' ∉ "delta2:".toList ++ fmt1 d2 ++ ['\n'] := by
    intro hc
    rcases List.mem_append.mp hc with h | h
    · rcases List.mem_append.mp h with h | h
      · revert h; decide
      · exact (fmt1_plain _ ' ' h).1 rfl
    · revert h; decide
  have hsp2 : pysplit ("delta2:".toList ++ fmt1 d2 ++ ['\n']) ' ' =
      [ "delta2:".toList ++ fmt1 d2 ++ ['\n'] ] := pysplit_sepFree hs2
  have hv1 : ':' ∉ fmt1 d1 := fun hc => (fmt1_plain _ ':' hc).2.1 rfl
  have hv2 : ':' ∉ fmt1 d2 ++ ['\n'] := by
    intro hc
    rcases List.mem_append.mp hc with h | h
    · exact (fmt1_plain _ ':' h).2.1 rfl
    · revert h; decide
  have hc1 : pysplit ("delta1:".toList ++ fmt1 d1) ':' =
      ["delta1".toList, fmt1 d1] := by
    rw [show "delta1:".toList ++ fmt1 d1 = "delta1".toList ++ ':' :: fmt1 d1
        from rfl,
      pysplit_sep _ (by decide), pysplit_sepFree hv1]
  have hc2 : pysplit ("delta2:".toList ++ fmt1 d2 ++ ['\n']) ':' =
      ["delta2".toList, fmt1 d2 ++ ['\n']] := by
    rw [show "delta2:".toList ++ fmt1 d2 ++ ['\n'] =
        "delta2".toList ++ ':' :: (fmt1 d2 ++ ['\n']) from rfl,
      pysplit_sep _ (by decide), pysplit_sepFree hv2]
  rw [latencyLine]
  simp only [hsp, hsp2, pyIdx, List.get?, hc1, hc2, parseFloat_fmt1,
    List.dropLast_concat, List.append_eq, List.nil_append, List.reverse_nil,
    splitOnAux_sepFree ':' (fmt1 d1) hv1,
    splitOnAux_sepFree ':' (fmt1 d2 ++ ['\n']) hv2]

/-- Dispatch of a non-comment, non-marker line on the current flag. -/
theorem processLine_data (cfg : CfgDict) (flag : ℕ) (line : Str) (c : Char)
    (hc : line.head? = some c) (h1 : c ≠ '#') (h2 : c ≠ '@') :
    processLine flag cfg line =
      if flag = 1 then latencyLine cfg line
      else if flag = 2 then asymTokens flag cfg (pysplit line ' ')
      else if flag = 3 then delayTokens flag cfg (pysplit line ' ')
      else (none, flag, cfg) := by
  cases line with
  | nil => simp at hc
  | cons c0 t =>
    have hc0 : c0 = c := by simpa using hc
    subst hc0
    rw [processLine]
    simp only [if_neg h1, if_neg h2]

theorem asymLine_head (l : List (Str × ℚ)) (hk : ∀ p ∈ l, goodKey p.1) :
    ∃ c, (asymLine l).head? = some c ∧ c ≠ '#' ∧ c ≠ '@' := by
  cases l with
  | nil => exact ⟨'\n', rfl, by decide, by decide⟩
  | cons p rest =>
    have hkey := hk p (List.mem_cons_self p rest)
    obtain ⟨c, k', hk0⟩ : ∃ c k', p.1 = c :: k' := by
      cases hp1 : p.1 with
      | nil => exact absurd hp1 hkey.1
      | cons c k' => exact ⟨c, k', rfl⟩
    have hcmem : c ∈ p.1 := by rw [hk0]; exact List.mem_cons_self c k'
    refine ⟨c, ?_, (hkey.2 c hcmem).2.2.2.1, (hkey.2 c hcmem).2.2.2.2⟩
    simp [asymLine, hk0]

theorem delayLine_head (l : List (Str × (ℚ × ℚ))) (hk : ∀ p ∈ l, goodKey p.1) :
    ∃ c, (delayLine l).head? = some c ∧ c ≠ '#' ∧ c ≠ '@' := by
  cases l with
  | nil => exact ⟨'\n', rfl, by decide, by decide⟩
  | cons p rest =>
    have hkey := hk p (List.mem_cons_self p rest)
    obtain ⟨c, k', hk0⟩ : ∃ c k', p.1 = c :: k' := by
      cases hp1 : p.1 with
      | nil => exact absurd hp1 hkey.1
      | cons c k' => exact ⟨c, k', rfl⟩
    have hcmem : c ∈ p.1 := by rw [hk0]; exact List.mem_cons_self c k'
    refine ⟨c, ?_, (hkey.2 c hcmem).2.2.2.1, (hkey.2 c hcmem).2.2.2.2⟩
    simp [delayLine, hk0]

/-- A written fiber-asymmetry data line merges the (truncated) entries
into the current record and stays in the asymmetry block. -/
theorem processLine_asymLine (l : List (Str × ℚ)) (hk : ∀ p ∈ l, goodKey p.1)
    (cfg : CfgDict) :
    processLine 2 cfg (asymLine l) =
      (none, 2, { cfg with asym := mergeInto truncQ cfg.asym l }) := by
  obtain ⟨ch, hch, h1, h2⟩ := asymLine_head l hk
  have hts : ∀ t ∈ l.map (fun p => p.1 ++ ':' :: fmtd p.2), ' ' ∉ t := by
    intro t ht
    obtain ⟨p, hp, rfl⟩ := List.mem_map.mp ht
    exact asym_token_no_space p (hk p hp)
  have hsp : pysplit (asymLine l) ' ' =
      (l.map (fun p => p.1 ++ ':' :: fmtd p.2)) ++ [['\n']] := by
    rw [asymLine_eq]
    exact pysplit_tokens_line _ hts
  rw [processLine_data cfg 2 _ ch hch h1 h2]
  norm_num
  rw [hsp]
  exact asymTokens_line l cfg hk

/-- A written port-delay data line merges the (truncated) delay pairs into
the current record. -/
theorem processLine_delayLine (l : List (Str × (ℚ × ℚ)))
    (hk : ∀ p ∈ l, goodKey p.1) (cfg : CfgDict) :
    processLine 3 cfg (delayLine l) =
      (none, 3, { cfg with delay := mergeInto truncPair cfg.delay l }) := by
  obtain ⟨ch, hch, h1, h2⟩ := delayLine_head l hk
  have hts : ∀ t ∈ l.map (fun p => p.1 ++ ':' :: (fmtd p.2.1 ++ ',' :: fmtd p.2.2)),
      ' ' ∉ t := by
    intro t ht
    obtain ⟨p, hp, rfl⟩ := List.mem_map.mp ht
    exact delay_token_no_space p (hk p hp)
  have hsp : pysplit (delayLine l) ' ' =
      (l.map (fun p => p.1 ++ ':' :: (fmtd p.2.1 ++ ',' :: fmtd p.2.2))) ++ [['\n']] := by
    rw [delayLine_eq]
    exact pysplit_tokens_line _ hts
  rw [processLine_data cfg 3 _ ch hch h1 h2]
  norm_num
  rw [hsp]
  exact delayTokens_line l cfg hk

/-- The fiber-latency data line, through `processLine` at flag 1. -/
theorem processLine_latencyLine (cfg : CfgDict) (d1 d2 : ℚ) :
    processLine 1 cfg
      ("delta1:".toList ++ fmt1 d1 ++ ' ' ::
        ("delta2:".toList ++ fmt1 d2 ++ ['\n'])) =
      (none, 0, { cfg with delta1 := round1 d1, delta2 := round1 d2 }) := by
  rw [processLine_data cfg 1
    ("delta1:".toList ++ fmt1 d1 ++ ' ' :: ("delta2:".toList ++ fmt1 d2 ++ ['\n']))
    'd' rfl (by decide) (by decide)]
  norm_num
  exact latencyLine_write cfg d1 d2

theorem readLines_nil (flag : ℕ) (cfg : CfgDict) :
    readLines flag cfg [] = (none, cfg) := rfl

theorem readLines_cons_ok (flag : ℕ) (cfg : CfgDict) (line : Str)
    (rest : List Str) (flag' : ℕ) (cfg' : CfgDict)
    (h : processLine flag cfg line = (none, flag', cfg')) :
    readLines flag cfg (line :: rest) = readLines flag' cfg' rest := by
  show (match processLine flag cfg line with
    | (some e, _, cfg') => (some e, cfg')
    | (none, flag', cfg') => readLines flag' cfg' rest) = readLines flag' cfg' rest
  rw [h]

/-- Main record round-trip characterization: reading a file written by
`write_config` succeeds, replaces the latency pair with the 1-decimal
serialized values, and merges the truncated asymmetry/delay entries into
the current in-memory record (Python-dict update semantics, no clearing of
pre-existing keys). -/
theorem read_write (cfg cfg2 : CfgDict) (now : Str)
    (ha : ∀ p ∈ cfg2.asym, goodKey p.1)
    (hd : ∀ p ∈ cfg2.delay, goodKey p.1) :
    read_config cfg (write_config now cfg2) =
      (none,
        { delta1 := round1 cfg2.delta1, delta2 := round1 cfg2.delta2,
          asym := mergeInto truncQ cfg.asym cfg2.asym,
          delay := mergeInto truncPair cfg.delay cfg2.delay }) := by
  rw [read_config, write_config,
    readLines_cons_ok _ _ _ _ _ _ (processLine_comment 0 cfg now),
    readLines_cons_ok _ _ _ _ _ _ (processLine_marker_latency 0 cfg),
    readLines_cons_ok _ _ _ _ _ _ (processLine_latencyLine cfg _ _),
    readLines_cons_ok _ _ _ _ _ _ (processLine_marker_asym 0 _),
    readLines_cons_ok _ _ _ _ _ _ (processLine_asymLine cfg2.asym ha _),
    readLines_cons_ok _ _ _ _ _ _ (processLine_marker_delay 2 _),
    readLines_cons_ok _ _ _ _ _ _ (processLine_delayLine cfg2.delay hd _),
    readLines_nil]

/-! ## Lemmas: the port-delay refinement loop -/

/-- Is this command a `mean_time_interval` instrument measurement? -/
def isMeas : Cmd → Bool
  | Cmd.meanTimeInterval => true
  | _ => false

/-- Number of instrument skew measurements in a command trace — in
`calibrate_device_port` exactly the number of refinement-loop
iterations. -/
def countMeas (l : List Cmd) : ℕ := (l.filter isMeas).length

theorem countMeas_nil : countMeas [] = 0 := rfl

theorem countMeas_append (a b : List Cmd) :
    countMeas (a ++ b) = countMeas a + countMeas b := by
  simp [countMeas, List.filter_append]

theorem countMeas_iter (a b c : ℕ) (sn : Str) (port : ℤ) (d r bt : ℚ)
    (tr : List Cmd) :
    countMeas (Cmd.trackWait a :: Cmd.meanTimeInterval :: Cmd.eraseSfp b ::
      Cmd.writeSfp c sn port d r bt :: Cmd.loadSfp c :: tr) = countMeas tr + 1 := by
  simp [countMeas, List.filter, isMeas]

theorem countMeas_getRtt_replicate (n : ℕ) :
    countMeas (List.replicate n (Cmd.getRtt 0)) = 0 := by
  induction n with
  | zero => rfl
  | succ n ih => simpa [countMeas, List.replicate, List.filter, isMeas,
      -List.filter_eq_nil_iff] using ih

theorem refineLoopAux_run (measure : ℕ → ℚ) (sn : Str) (port : ℤ)
    (beta error coarse : ℚ) (k : ℕ) (hk10 : k ≤ 10)
    (H1 : ∀ j, j + 1 < k → error < |measure j * 1e12|)
    (H2 : k < 10 → |measure (k - 1) * 1e12| ≤ error) :
    ∀ d i, i + d = k → 1 ≤ i →
      (refineLoopAux measure sn port beta error (10 - i) i
          (measure (i - 1) * 1e12)
          (updAfter measure coarse i).1 (updAfter measure coarse i).2
          (some (updAfter measure coarse i))).1 =
        some (updAfter measure coarse k) ∧
      (refineLoopAux measure sn port beta error (10 - i) i
          (measure (i - 1) * 1e12)
          (updAfter measure coarse i).1 (updAfter measure coarse i).2
          (some (updAfter measure coarse i))).2.1 = k ∧
      countMeas
        (refineLoopAux measure sn port beta error (10 - i) i
          (measure (i - 1) * 1e12)
          (updAfter measure coarse i).1 (updAfter measure coarse i).2
          (some (updAfter measure coarse i))).2.2 = k - i := by
  intro d
  induction d with
  | zero =>
    intro i hik hi1
    have hik' : i = k := by omega
    subst hik'
    by_cases hk : i = 10
    · subst hk
      rw [show 10 - 10 = 0 from rfl, refineLoopAux]
      exact ⟨rfl, rfl, rfl⟩
    · obtain ⟨f, hf⟩ : ∃ f, 10 - i = f + 1 := ⟨10 - i - 1, by omega⟩
      rw [hf, refineLoopAux, if_neg (not_lt.mpr (H2 (by omega)))]
      exact ⟨rfl, rfl, by simp [countMeas]⟩
  | succ d ih =>
    intro i hik hi1
    have hcond : error < |measure (i - 1) * 1e12| :=
      H1 (i - 1) (by omega)
    rw [show 10 - i = (10 - (i + 1)) + 1 from by omega, refineLoopAux,
      if_pos hcond]
    dsimp only
    have IH := ih (i + 1) (by omega) (by omega)
    rw [Nat.add_sub_cancel] at IH
    simp only [updAfter] at IH
    refine ⟨IH.1, IH.2.1, ?_⟩
    rw [countMeas_iter, IH.2.2]
    omega

theorem refineLoopAux_top (measure : ℕ → ℚ) (sn : Str) (port : ℤ)
    (beta error coarse : ℚ) (k : ℕ) (herr : error < 1e10)
    (hk1 : 1 ≤ k) (hk10 : k ≤ 10)
    (H1 : ∀ j, j + 1 < k → error < |measure j * 1e12|)
    (H2 : k < 10 → |measure (k - 1) * 1e12| ≤ error) :
    (refineLoopAux measure sn port beta error 10 0 1e10 coarse coarse none).1 =
      some (updAfter measure coarse k) ∧
    (refineLoopAux measure sn port beta error 10 0 1e10 coarse coarse none).2.1 = k ∧
    countMeas
      (refineLoopAux measure sn port beta error 10 0 1e10 coarse coarse none).2.2 =
      k := by
  have habs : error < |(1e10 : ℚ)| := by
    rw [abs_of_pos (by norm_num)]
    exact herr
  rw [show (10 : ℕ) = 9 + 1 from rfl, refineLoopAux, if_pos habs]
  dsimp only
  have hrun := refineLoopAux_run measure sn port beta error coarse k hk10 H1 H2
    (k - 1) 1 (by omega) (le_refl 1)
  rw [show (1 : ℕ) - 1 = 0 from rfl] at hrun
  simp only [updAfter] at hrun
  rw [show (10 : ℕ) - 1 = 9 from rfl] at hrun
  refine ⟨hrun.1, hrun.2.1, ?_⟩
  rw [countMeas_iter, hrun.2.2]
  omega

/-! ## Concrete fixtures for witnesses and counterexamples -/

/-- A record with a valid fiber-latency measurement and nothing else. -/
def cfgLat : CfgDict := ⟨1, 1, [], []⟩

/-- Instrument readings for the C1 counterexample: a large *negative* skew
on f1, zero on f2. -/
def mC1 : ℕ → ℚ := fun n => if n = 0 then -(2e-6 : ℚ) else 0

/-- A record holding a fiber-latency value and one blue asymmetry entry. -/
def cfgCal : CfgDict := ⟨1, 1, [("blue-wr1".toList, 5)], []⟩

/-- Trivial phy-delay report. -/
def phy0 : PhyDelays := ⟨(0, 0), (0, 0)⟩

/-- A record with one stale asymmetry key, for the merge counterexample. -/
def cfgStale : CfgDict := ⟨1, 1, [("stale-wr9".toList, 5)], []⟩

/-- An empty record. -/
def cfgEmpty : CfgDict := ⟨0, 0, [], []⟩

/-! ## Claims -/

/-- C1 (amended): in `fiber_asymmetry`, with the preconditions satisfied,
`MeasuringError` is raised exactly when a *sign-adjusted* mean skew (the
raw reading negated for `sfp="blue"`, unchanged otherwise) is `≥ 1e-6`
seconds — the boundary `1e-6` itself is rejected, but the check is
one-sided: a negative adjusted skew of arbitrarily large magnitude is
accepted, so the rejection does **not** apply to the absolute value as the
original claim states. -/
theorem C1_measuring_check_one_sided (ndev : ℕ) (cfg : CfgDict)
    (measure : ℕ → ℚ) (port : ℤ) (sfp : Str)
    (h2 : 2 ≤ ndev) (hδ : cfg.delta1 ≠ 0) :
    (fiber_asymmetry ndev true cfg measure port sfp).err =
        some WRError.MeasuringError ↔
      (1e-6 ≤ (if sfp = "blue".toList then -measure 0 else measure 0) ∨
        1e-6 ≤ (if sfp = "blue".toList then -measure 1 else measure 1)) := by
  rw [fiber_asymmetry, if_neg (show ¬ ndev < 2 by omega),
    if_neg (show ¬ (true = false) by simp), if_neg hδ]
  dsimp only
  split_ifs with hA hB hC hD <;> simp_all

/-- C1 counterexample: with `sfp="violet"` and a raw f1 skew of `-2e-6` s
(absolute value well above `1e-6`), the operation does *not* raise
`MeasuringError` — it completes and stores a coefficient — refuting the
claim that the rejection applies to the magnitude of the skew. -/
theorem C1_cex_negative_skew_accepted :
    (1e-6 : ℚ) ≤ |mC1 0| ∧
      (fiber_asymmetry 2 true cfgLat mC1 1 ("violet".toList)).err = none := by
  constructor
  · rw [show mC1 0 = -(2e-6 : ℚ) from rfl, abs_neg, abs_of_pos (by norm_num)]
    norm_num
  · simp only [fiber_asymmetry, cfgLat, mC1,
      if_neg (show ¬ ("violet".toList = "blue".toList) from by decide),
      if_pos (show "violet".toList = "violet".toList from rfl)]
    norm_num

/-- C1 witness for the amended theorem: for `sfp="blue"` the raw reading
`-2e-6` is negated to `2e-6 ≥ 1e-6` and `MeasuringError` is raised. -/
theorem C1_measuring_check_one_sided_witness :
    (2 : ℕ) ≤ 2 ∧ cfgLat.delta1 ≠ 0 ∧
      ((fiber_asymmetry 2 true cfgLat mC1 1 ("blue".toList)).err =
          some WRError.MeasuringError ↔
        (1e-6 ≤ (if ("blue".toList : Str) = "blue".toList then -mC1 0 else mC1 0) ∨
          1e-6 ≤ (if ("blue".toList : Str) = "blue".toList then -mC1 1 else mC1 1))) :=
  ⟨le_refl 2, by norm_num [cfgLat],
    C1_measuring_check_one_sided 2 cfgLat mC1 1 ("blue".toList) (le_refl 2)
      (by norm_num [cfgLat])⟩

/-- C2 (code bug): with a valid fiber latency (`delta1 = 1 ≠ 0`), an
instrument, one device, and *no* asymmetry entry for `blue-wr1`, the
missing-asymmetry check fires before any device command (empty trace,
record untouched) — but it raises `FiberLatencyNeeded`, not the
`FiberAsymmetryNeeded` its own docstring (and the spec) promise. -/
theorem C2_missing_asym_raises_wrong_kind :
    calibrate_device_port 1 true cfgLat 1 (fun _ => 0) (fun _ => 0) 1 phy0 1
        ("blue".toList) =
      ⟨some WRError.FiberLatencyNeeded, cfgLat, []⟩ ∧
    WRError.FiberLatencyNeeded ≠ WRError.FiberAsymmetryNeeded := by
  constructor
  · rw [calibrate_device_port, if_neg (show ¬ (1 : ℕ) < 1 by omega),
      if_neg (show ¬ (true = false) by simp),
      if_neg (show cfgLat.delta1 ≠ 0 by norm_num [cfgLat])]
    rw [show pyLookup cfgLat.asym (wrKey ("blue".toList) 1) = none from rfl]
  · decide

/-- C6: with the preconditions met and the derivation's denominators
nonzero, the coefficient stored under `"<sfp>-wr<port>"` is
`alpha_n = 2^40 * ((alpha+1)/(alpha+2) - 0.5)` with
`alpha = 2*dif / (0.5*delta2 - dif)` and `dif = skew_f2 - skew_f1` in ps
(skews post sign-correction), and for `sfp="violet"` the stored value is
exactly the negation of that no-sign-flip (blue-case) value. -/
theorem C6_alpha_formula_and_violet_negation (ndev : ℕ) (cfg : CfgDict)
    (s1 s2 : ℚ) (port : ℤ)
    (h2 : 2 ≤ ndev) (hδ : cfg.delta1 ≠ 0)
    (hs1 : s1 < 1e-6) (hs2 : s2 < 1e-6)
    (hden : 0.5 * cfg.delta2 - (s2 * 1e12 - s1 * 1e12) ≠ 0)
    (hden2 : 2 * (s2 * 1e12 - s1 * 1e12) /
        (0.5 * cfg.delta2 - (s2 * 1e12 - s1 * 1e12)) + 2 ≠ 0) :
    pyLookup (fiber_asymmetry ndev true cfg (fun n => if n = 0 then -s1 else -s2)
        port ("blue".toList)).cfg.asym (wrKey ("blue".toList) port) =
      some (2 ^ 40 *
        ((2 * (s2 * 1e12 - s1 * 1e12) /
            (0.5 * cfg.delta2 - (s2 * 1e12 - s1 * 1e12)) + 1) /
          (2 * (s2 * 1e12 - s1 * 1e12) /
            (0.5 * cfg.delta2 - (s2 * 1e12 - s1 * 1e12)) + 2) - 0.5)) ∧
    pyLookup (fiber_asymmetry ndev true cfg (fun n => if n = 0 then s1 else s2)
        port ("violet".toList)).cfg.asym (wrKey ("violet".toList) port) =
      some (-(2 ^ 40 *
        ((2 * (s2 * 1e12 - s1 * 1e12) /
            (0.5 * cfg.delta2 - (s2 * 1e12 - s1 * 1e12)) + 1) /
          (2 * (s2 * 1e12 - s1 * 1e12) /
            (0.5 * cfg.delta2 - (s2 * 1e12 - s1 * 1e12)) + 2) - 0.5))) := by
  constructor
  · rw [fiber_asymmetry, if_neg (show ¬ ndev < 2 by omega),
      if_neg (show ¬ (true = false) by simp), if_neg hδ]
    dsimp only
    simp only [ite_true, ite_false, if_true, if_false,
      if_neg (show ¬ ((1 : ℕ) = 0) from by decide),
      if_neg (show ¬ (("violet".toList : Str) = "blue".toList) from by decide),
      if_neg (show ¬ (("blue".toList : Str) = "violet".toList) from by decide),
      neg_neg]
    rw [if_neg (not_le.mpr hs1), if_neg (not_le.mpr hs2), if_neg hden,
      if_neg hden2]
    dsimp only
    rw [pyLookup_dictUpdate_self]
  · rw [fiber_asymmetry, if_neg (show ¬ ndev < 2 by omega),
      if_neg (show ¬ (true = false) by simp), if_neg hδ]
    dsimp only
    simp only [ite_true, ite_false, if_true, if_false,
      if_neg (show ¬ ((1 : ℕ) = 0) from by decide),
      if_neg (show ¬ (("violet".toList : Str) = "blue".toList) from by decide),
      neg_neg]
    rw [if_neg (not_le.mpr hs1), if_neg (not_le.mpr hs2), if_neg hden,
      if_neg hden2]
    dsimp only
    rw [pyLookup_dictUpdate_self]

/-- C6 witness at concrete skews/latency. -/
theorem C6_alpha_formula_and_violet_negation_witness :
    (2 : ℕ) ≤ 2 ∧ cfgLat.delta1 ≠ 0 ∧ (0 : ℚ) < 1e-6 ∧
      (pyLookup (fiber_asymmetry 2 true cfgLat
          (fun n => if n = 0 then -(0 : ℚ) else -(1e-10 : ℚ)) 1
          ("blue".toList)).cfg.asym (wrKey ("blue".toList) 1) =
        some (2 ^ 40 *
          ((2 * ((1e-10 : ℚ) * 1e12 - (0 : ℚ) * 1e12) /
              (0.5 * cfgLat.delta2 - ((1e-10 : ℚ) * 1e12 - (0 : ℚ) * 1e12)) + 1) /
            (2 * ((1e-10 : ℚ) * 1e12 - (0 : ℚ) * 1e12) /
              (0.5 * cfgLat.delta2 - ((1e-10 : ℚ) * 1e12 - (0 : ℚ) * 1e12)) + 2) - 0.5))) ∧
      (pyLookup (fiber_asymmetry 2 true cfgLat
          (fun n => if n = 0 then (0 : ℚ) else (1e-10 : ℚ)) 1
          ("violet".toList)).cfg.asym (wrKey ("violet".toList) 1) =
        some (-(2 ^ 40 *
          ((2 * ((1e-10 : ℚ) * 1e12 - (0 : ℚ) * 1e12) /
              (0.5 * cfgLat.delta2 - ((1e-10 : ℚ) * 1e12 - (0 : ℚ) * 1e12)) + 1) /
            (2 * ((1e-10 : ℚ) * 1e12 - (0 : ℚ) * 1e12) /
              (0.5 * cfgLat.delta2 - ((1e-10 : ℚ) * 1e12 - (0 : ℚ) * 1e12)) + 2) - 0.5)))) := by
  have h := C6_alpha_formula_and_violet_negation 2 cfgLat 0 (1e-10) 1
    (le_refl 2) (by norm_num [cfgLat]) (by norm_num) (by norm_num)
    (by norm_num [cfgLat]) (by norm_num [cfgLat])
  exact ⟨le_refl 2, by norm_num [cfgLat], by norm_num, h.1, h.2⟩

/-- C8: calling `fiber_asymmetry` (with ≥ 2 devices and an instrument) or
`calibrate_device_port` (with ≥ 1 device and an instrument) while
`fiber_latency.delta1 == 0` raises `FiberLatencyNeeded` with an empty
command trace (no device or instrument command issued) and the record
unchanged. -/
theorem C8_delta1_zero_fails_before_commands (ndev ndev2 : ℕ) (cfg : CfgDict)
    (measure measure2 rtts : ℕ → ℚ) (error : ℚ) (n_samples : ℕ)
    (phy : PhyDelays) (port port2 : ℤ) (sfp sfp2 : Str)
    (h2 : 2 ≤ ndev) (h1 : 1 ≤ ndev2) (hδ : cfg.delta1 = 0) :
    fiber_asymmetry ndev true cfg measure port sfp =
      ⟨some WRError.FiberLatencyNeeded, cfg, []⟩ ∧
    calibrate_device_port ndev2 true cfg error measure2 rtts n_samples phy
        port2 sfp2 =
      ⟨some WRError.FiberLatencyNeeded, cfg, []⟩ := by
  constructor
  · rw [fiber_asymmetry, if_neg (show ¬ ndev < 2 by omega),
      if_neg (show ¬ (true = false) by simp), if_pos hδ]
  · rw [calibrate_device_port, if_neg (show ¬ ndev2 < 1 by omega),
      if_neg (show ¬ (true = false) by simp), if_pos hδ]

/-- C8 witness at a concrete zero-latency record. -/
theorem C8_delta1_zero_fails_before_commands_witness :
    (2 : ℕ) ≤ 2 ∧ (1 : ℕ) ≤ 1 ∧ cfgEmpty.delta1 = 0 ∧
      (fiber_asymmetry 2 true cfgEmpty (fun _ => 0) 1 ("blue".toList) =
        ⟨some WRError.FiberLatencyNeeded, cfgEmpty, []⟩ ∧
      calibrate_device_port 1 true cfgEmpty 1 (fun _ => 0) (fun _ => 0) 1 phy0 1
          ("blue".toList) =
        ⟨some WRError.FiberLatencyNeeded, cfgEmpty, []⟩) :=
  ⟨le_refl 2, le_refl 1, rfl,
    C8_delta1_zero_fails_before_commands 2 1 cfgEmpty (fun _ => 0) (fun _ => 0)
      (fun _ => 0) 1 1 phy0 1 1 ("blue".toList) ("blue".toList)
      (le_refl 2) (le_refl 1) rfl⟩

/-- C10: the session fields are class attributes, so (unrebound) instances
share the single class-level device list and record dict: a device added
through instance `a` is visible through instance `b`, and constructing a
second instance re-runs `__init__` on the shared dict, resetting `delta1`
to 0 through *both* instances and destroying the first instance's
fiber-latency measurement. -/
theorem C10_class_scope_state_shared (w0 : PyWorld) (d1 d2 : ℚ) (dev : Str) :
    get_delta1
        (add_wr_device
          (init_instance (store_fiber_latency (init_instance w0).1
            (init_instance w0).2 d1 d2)).1
          (init_instance w0).2 dev)
        (init_instance w0).2 = 0 ∧
    get_delta1
        (add_wr_device
          (init_instance (store_fiber_latency (init_instance w0).1
            (init_instance w0).2 d1 d2)).1
          (init_instance w0).2 dev)
        (init_instance (store_fiber_latency (init_instance w0).1
          (init_instance w0).2 d1 d2)).2 = 0 ∧
    dev ∈ get_devices
        (add_wr_device
          (init_instance (store_fiber_latency (init_instance w0).1
            (init_instance w0).2 d1 d2)).1
          (init_instance w0).2 dev)
        (init_instance (store_fiber_latency (init_instance w0).1
          (init_instance w0).2 d1 d2)).2 ∧
    get_devices
        (add_wr_device
          (init_instance (store_fiber_latency (init_instance w0).1
            (init_instance w0).2 d1 d2)).1
          (init_instance w0).2 dev)
        (init_instance w0).2 =
      get_devices
        (add_wr_device
          (init_instance (store_fiber_latency (init_instance w0).1
            (init_instance w0).2 d1 d2)).1
          (init_instance w0).2 dev)
        (init_instance (store_fiber_latency (init_instance w0).1
          (init_instance w0).2 d1 d2)).2 := by
  refine ⟨?_, ?_, ?_, ?_⟩ <;>
    simp [init_instance, store_fiber_latency, add_wr_device, get_delta1,
      get_devices, resolveCfg, resolveDev, setCfgAt]

/-- C5: with the preconditions met, `error < 1e10` (so the sentinel starts
the loop) and a skew sequence whose measurements exceed `error` (in ps)
strictly before the `k`-th and, when `k < 10`, fall within `error` at the
`k`-th, the refinement loop performs exactly `k` iterations (`k` skew
measurements, no `(k+1)`-th), each updating
`dtxs := old_dtxs - skew_ps` and `drxs := old_drxs + skew_ps`, and stores
the values after the `k`-th update in `port_delay` without raising — the
`k = 10` instance is the soft cap: exactly 10 iterations and the last
computed pair is stored even when the skews never converged. -/
theorem C5_refinement_loop_soft_cap (ndev : ℕ) (cfg : CfgDict) (error : ℚ)
    (measure rtts : ℕ → ℚ) (n_samples : ℕ) (phy : PhyDelays) (port : ℤ)
    (sfp : Str) (beta : ℚ) (k : ℕ)
    (h1 : 1 ≤ ndev) (hδ : cfg.delta1 ≠ 0)
    (hβ : pyLookup cfg.asym (wrKey sfp port) = some beta)
    (hn : ¬ n_samples = 0) (herr : error < 1e10) (hk1 : 1 ≤ k) (hk10 : k ≤ 10)
    (H1 : ∀ j, j + 1 < k → error < |measure j * 1e12|)
    (H2 : k < 10 → |measure (k - 1) * 1e12| ≤ error) :
    (calibrate_device_port ndev true cfg error measure rtts n_samples phy
        port sfp).err = none ∧
    pyLookup (calibrate_device_port ndev true cfg error measure rtts n_samples
        phy port sfp).cfg.delay (wrKey sfp port) =
      some (updAfter measure
        (coarseDelay (((List.range n_samples).map rtts).sum / (n_samples : ℚ))
          phy.master.1 phy.master.2 phy.slave.2 cfg.delta1) k) ∧
    countMeas (calibrate_device_port ndev true cfg error measure rtts n_samples
        phy port sfp).trace = k := by
  have hr := refineLoopAux_top measure
    (if sfp = "blue".toList then "AXGE-1254-0531".toList
      else "AXGE-3454-0531".toList)
    port beta error
    (coarseDelay (((List.range n_samples).map rtts).sum / (n_samples : ℚ))
      phy.master.1 phy.master.2 phy.slave.2 cfg.delta1)
    k herr hk1 hk10 H1 H2
  rw [calibrate_device_port, if_neg (show ¬ ndev < 1 by omega),
    if_neg (show ¬ (true = false) by simp), if_neg hδ, hβ]
  dsimp only
  rw [if_neg hn]
  rw [hr.1]
  dsimp only
  refine ⟨rfl, ?_, ?_⟩
  · rw [pyLookup_dictUpdate_self]
  · rw [countMeas_append, countMeas_append, countMeas_append,
      countMeas_getRtt_replicate, hr.2.2]
    simp [countMeas, List.filter, isMeas]

/-- C5 witness: one measurement of 0 converges at once (`k = 1`). -/
theorem C5_refinement_loop_soft_cap_witness :
    (1 : ℕ) ≤ 1 ∧ cfgCal.delta1 ≠ 0 ∧
      pyLookup cfgCal.asym (wrKey ("blue".toList) 1) = some 5 ∧
      (1 : ℚ) < 1e10 ∧
      ((calibrate_device_port 1 true cfgCal 1 (fun _ => 0) (fun _ => 0) 1 phy0 1
          ("blue".toList)).err = none ∧
      pyLookup (calibrate_device_port 1 true cfgCal 1 (fun _ => 0) (fun _ => 0)
          1 phy0 1 ("blue".toList)).cfg.delay (wrKey ("blue".toList) 1) =
        some (updAfter (fun _ => 0)
          (coarseDelay (((List.range 1).map (fun _ => (0 : ℚ))).sum / ((1 : ℕ) : ℚ))
            phy0.master.1 phy0.master.2 phy0.slave.2 cfgCal.delta1) 1) ∧
      countMeas (calibrate_device_port 1 true cfgCal 1 (fun _ => 0) (fun _ => 0)
          1 phy0 1 ("blue".toList)).trace = 1) := by
  have hb : pyLookup cfgCal.asym (wrKey ("blue".toList) 1) = some 5 := by
    rw [show wrKey ("blue".toList) 1 = "blue-wr1".toList from rfl]
    rfl
  refine ⟨le_refl 1, by norm_num [cfgCal], hb, by norm_num, ?_⟩
  exact C5_refinement_loop_soft_cap 1 cfgCal 1 (fun _ => 0) (fun _ => 0) 1 phy0
    1 ("blue".toList) 5 1 (le_refl 1) (by norm_num [cfgCal]) hb (by norm_num)
    (by norm_num) (le_refl 1) (by norm_num) (fun j hj => absurd hj (by omega))
    (fun _ => by norm_num)

/-- C9: `mean_skew` starts at the sentinel `1e10`, so with the
preconditions met: for `error < 1e10` the loop body runs at least once —
at least one instrument skew measurement happens and the first refinement
SFP rewrite `write_sfp_config(sn, port, coarse - skew_ps, coarse + skew_ps,
beta)` is issued even if the device is already converged; for
`error ≥ 1e10` the body never runs, `dtxs`/`drxs` are never assigned, and
the final store raises `UnboundLocalError` instead of writing a
`port_delay` entry (no skew measurement at all, record unchanged). -/
theorem C9_sentinel_skew_loop_entry (ndev : ℕ) (cfg : CfgDict) (error : ℚ)
    (measure rtts : ℕ → ℚ) (n_samples : ℕ) (phy : PhyDelays) (port : ℤ)
    (sfp : Str) (beta : ℚ)
    (h1 : 1 ≤ ndev) (hδ : cfg.delta1 ≠ 0)
    (hβ : pyLookup cfg.asym (wrKey sfp port) = some beta)
    (hn : ¬ n_samples = 0) :
    (error < 1e10 →
      1 ≤ countMeas (calibrate_device_port ndev true cfg error measure rtts
        n_samples phy port sfp).trace ∧
      Cmd.writeSfp 0
          (if sfp = "blue".toList then "AXGE-1254-0531".toList
            else "AXGE-3454-0531".toList) port
          (coarseDelay (((List.range n_samples).map rtts).sum / (n_samples : ℚ))
              phy.master.1 phy.master.2 phy.slave.2 cfg.delta1
            - measure 0 * 1e12)
          (coarseDelay (((List.range n_samples).map rtts).sum / (n_samples : ℚ))
              phy.master.1 phy.master.2 phy.slave.2 cfg.delta1
            + measure 0 * 1e12) beta
        ∈ (calibrate_device_port ndev true cfg error measure rtts n_samples phy
            port sfp).trace) ∧
    (1e10 ≤ error →
      (calibrate_device_port ndev true cfg error measure rtts n_samples phy
        port sfp).err = some WRError.UnboundLocalError ∧
      (calibrate_device_port ndev true cfg error measure rtts n_samples phy
        port sfp).cfg = cfg ∧
      countMeas (calibrate_device_port ndev true cfg error measure rtts
        n_samples phy port sfp).trace = 0) := by
  rw [calibrate_device_port, if_neg (show ¬ ndev < 1 by omega),
    if_neg (show ¬ (true = false) by simp), if_neg hδ, hβ]
  dsimp only
  rw [if_neg hn]
  constructor
  · intro herr
    have habs : error < |(1e10 : ℚ)| := by
      rw [abs_of_pos (by norm_num)]
      exact herr
    rw [show (10 : ℕ) = 9 + 1 from rfl, refineLoopAux, if_pos habs]
    dsimp only
    cases hres : (refineLoopAux measure
        (if sfp = "blue".toList then "AXGE-1254-0531".toList
          else "AXGE-3454-0531".toList) port beta error 9 1 (measure 0 * 1e12)
        (coarseDelay (((List.range n_samples).map rtts).sum / (n_samples : ℚ))
            phy.master.1 phy.master.2 phy.slave.2 cfg.delta1 - measure 0 * 1e12)
        (coarseDelay (((List.range n_samples).map rtts).sum / (n_samples : ℚ))
            phy.master.1 phy.master.2 phy.slave.2 cfg.delta1 + measure 0 * 1e12)
        (some (coarseDelay (((List.range n_samples).map rtts).sum / (n_samples : ℚ))
            phy.master.1 phy.master.2 phy.slave.2 cfg.delta1 - measure 0 * 1e12,
          coarseDelay (((List.range n_samples).map rtts).sum / (n_samples : ℚ))
            phy.master.1 phy.master.2 phy.slave.2 cfg.delta1 + measure 0 * 1e12))).1
        with
    | none =>
      dsimp only
      refine ⟨?_, ?_⟩
      · rw [countMeas_append, countMeas_append, countMeas_append,
          countMeas_getRtt_replicate, countMeas_iter]
        omega
      · simp
    | some dd =>
      dsimp only
      refine ⟨?_, ?_⟩
      · rw [countMeas_append, countMeas_append, countMeas_append,
          countMeas_getRtt_replicate, countMeas_iter]
        omega
      · simp
  · intro herr
    have habs : ¬ error < |(1e10 : ℚ)| := by
      rw [abs_of_pos (by norm_num)]
      exact not_lt.mpr herr
    rw [show (10 : ℕ) = 9 + 1 from rfl, refineLoopAux, if_neg habs]
    dsimp only
    refine ⟨rfl, rfl, ?_⟩
    rw [countMeas_append, countMeas_append, countMeas_append,
      countMeas_getRtt_replicate]
    simp [countMeas, List.filter, isMeas]

/-- C9 witness: both branches at concrete inputs. -/
theorem C9_sentinel_skew_loop_entry_witness :
    (1 : ℕ) ≤ 1 ∧ cfgCal.delta1 ≠ 0 ∧
      ((1 : ℚ) < 1e10 →
        1 ≤ countMeas (calibrate_device_port 1 true cfgCal 1 (fun _ => 0)
          (fun _ => 0) 1 phy0 1 ("blue".toList)).trace) ∧
      ((1e10 : ℚ) ≤ 1e10 →
        (calibrate_device_port 1 true cfgCal 1e10 (fun _ => 0) (fun _ => 0) 1
          phy0 1 ("blue".toList)).err = some WRError.UnboundLocalError) := by
  have hb : pyLookup cfgCal.asym (wrKey ("blue".toList) 1) = some 5 := by
    rw [show wrKey ("blue".toList) 1 = "blue-wr1".toList from rfl]
    rfl
  refine ⟨le_refl 1, by norm_num [cfgCal], ?_, ?_⟩
  · intro herr
    exact ((C9_sentinel_skew_loop_entry 1 cfgCal 1 (fun _ => 0) (fun _ => 0) 1
      phy0 1 ("blue".toList) 5 (le_refl 1) (by norm_num [cfgCal]) hb
      (by norm_num)).1 herr).1
  · intro herr
    exact ((C9_sentinel_skew_loop_entry 1 cfgCal 1e10 (fun _ => 0) (fun _ => 0)
      1 phy0 1 ("blue".toList) 5 (le_refl 1) (by norm_num [cfgCal]) hb
      (by norm_num)).2 herr).1

/-- C3 (amended): a successful `read_config` does not replace the
`fiber_asymmetry` / `port_delay` mappings wholesale: it merges the file's
entries into the in-memory dicts key by key, so keys present in memory but
absent from the (well-formed, written) file survive with their old values,
while keys present in the file take the file's values. -/
theorem C3_read_config_merges_not_replaces (cfg cfg2 : CfgDict) (now : Str)
    (ha : ∀ p ∈ cfg2.asym, goodKey p.1)
    (hd : ∀ p ∈ cfg2.delay, goodKey p.1) :
    (read_config cfg (write_config now cfg2)).1 = none ∧
    (∀ k, k ∉ cfg2.asym.map Prod.fst →
      pyLookup (read_config cfg (write_config now cfg2)).2.asym k =
        pyLookup cfg.asym k) ∧
    (∀ k, k ∉ cfg2.delay.map Prod.fst →
      pyLookup (read_config cfg (write_config now cfg2)).2.delay k =
        pyLookup cfg.delay k) := by
  rw [read_write cfg cfg2 now ha hd]
  exact ⟨rfl, fun k hk => pyLookup_mergeInto_not_mem _ _ _ _ hk,
    fun k hk => pyLookup_mergeInto_not_mem _ _ _ _ hk⟩

/-- C3 counterexample: loading a well-formed asymmetry file into a record
that already holds the key `stale-wr9` (absent from the file) succeeds and
leaves `stale-wr9` alive next to the file's `blue-wr1` — the in-memory
mapping is *not* equal to the file's contents, refuting full
replacement. -/
theorem C3_cex_stale_key_survives :
    (read_config cfgStale
      ["@fiber-asymmetry\n".toList, "blue-wr1:3\n".toList]).1 = none ∧
    pyLookup (read_config cfgStale
        ["@fiber-asymmetry\n".toList, "blue-wr1:3\n".toList]).2.asym
      ("stale-wr9".toList) = some 5 ∧
    pyLookup (read_config cfgStale
        ["@fiber-asymmetry\n".toList, "blue-wr1:3\n".toList]).2.asym
      ("blue-wr1".toList) = some 3 := by
  refine ⟨?_, ?_, ?_⟩ <;> decide

/-- C3 witness: the amended merge behaviour at a concrete record and
file. -/
theorem C3_read_config_merges_not_replaces_witness :
    (∀ p ∈ cfgStale.asym, goodKey p.1) ∧ (∀ p ∈ cfgStale.delay, goodKey p.1) ∧
      ((read_config cfgLat (write_config ("ts".toList) cfgStale)).1 = none ∧
      (∀ k, k ∉ cfgStale.asym.map Prod.fst →
        pyLookup (read_config cfgLat
            (write_config ("ts".toList) cfgStale)).2.asym k =
          pyLookup cfgLat.asym k) ∧
      (∀ k, k ∉ cfgStale.delay.map Prod.fst →
        pyLookup (read_config cfgLat
            (write_config ("ts".toList) cfgStale)).2.delay k =
          pyLookup cfgLat.delay k)) :=
  ⟨by decide, by decide,
    C3_read_config_merges_not_replaces cfgLat cfgStale ("ts".toList)
      (by decide) (by decide)⟩

/-- C4 (amended): a malformed `key:value` token makes `read_config` raise
a Python *builtin* exception — `IndexError` for a missing `:`,
`ValueError` for a non-numeric value — not a `ParseError`; entries parsed
before the malformed token are already committed to the record (the load
is not atomic); newline-only tokens are silently skipped. -/
theorem C4_malformed_token_builtin_error_partial_commit (cfg : CfgDict) :
    (read_config cfg
        ["@fiber-asymmetry\n".toList, "good-wr1:5 bad-wr2:xx\n".toList]).1 =
      some WRError.ValueError ∧
    pyLookup (read_config cfg
        ["@fiber-asymmetry\n".toList, "good-wr1:5 bad-wr2:xx\n".toList]).2.asym
      ("good-wr1".toList) = some 5 ∧
    (read_config cfg
        ["@fiber-asymmetry\n".toList, "noColonToken\n".toList]).1 =
      some WRError.IndexError ∧
    (read_config cfg
        ["@fiber-asymmetry\n".toList, "\n".toList, "good-wr1:5 \n".toList]).1 =
      none := by
  refine ⟨rfl, ?_, rfl, rfl⟩
  exact pyLookup_dictUpdate_self cfg.asym ("good-wr1".toList) 5

/-- C4 counterexample: on a file whose second token has a non-numeric
value, the load fails with `ValueError` (not `ParseError`) *and* the
record is already mutated — the first token was committed before the
failure — refuting both the error kind and the no-partial-commit
claims. -/
theorem C4_cex_valueerror_and_partial_commit :
    (read_config cfgEmpty
        ["@fiber-asymmetry\n".toList, "good-wr1:5 bad-wr2:xx\n".toList]).1 =
      some WRError.ValueError ∧
    (read_config cfgEmpty
        ["@fiber-asymmetry\n".toList, "good-wr1:5 bad-wr2:xx\n".toList]).1 ≠
      some WRError.ParseError ∧
    pyLookup (read_config cfgEmpty
        ["@fiber-asymmetry\n".toList, "good-wr1:5 bad-wr2:xx\n".toList]).2.asym
      ("good-wr1".toList) = some 5 ∧
    (read_config cfgEmpty
        ["@fiber-asymmetry\n".toList, "good-wr1:5 bad-wr2:xx\n".toList]).2 ≠
      cfgEmpty := by
  refine ⟨?_, ?_, ?_, ?_⟩ <;> decide

/-- C7: writing the record and reading the produced file back succeeds and
(on the same session, whose in-memory state is what was written) restores
`fiber_latency` to the 1-decimal serialized values and every
`fiber_asymmetry` / `port_delay` key to its integer-truncated value — the
round-trip is the identity up to the serialization precision loss. -/
theorem C7_write_read_round_trip (cfg : CfgDict) (now : Str)
    (ha : ∀ p ∈ cfg.asym, goodKey p.1)
    (hd : ∀ p ∈ cfg.delay, goodKey p.1)
    (hna : (cfg.asym.map Prod.fst).Nodup)
    (hnd : (cfg.delay.map Prod.fst).Nodup) :
    (read_config cfg (write_config now cfg)).1 = none ∧
    (read_config cfg (write_config now cfg)).2.delta1 = round1 cfg.delta1 ∧
    (read_config cfg (write_config now cfg)).2.delta2 = round1 cfg.delta2 ∧
    (∀ p ∈ cfg.asym,
      pyLookup (read_config cfg (write_config now cfg)).2.asym p.1 =
        some (truncQ p.2)) ∧
    (∀ p ∈ cfg.delay,
      pyLookup (read_config cfg (write_config now cfg)).2.delay p.1 =
        some (truncPair p.2)) := by
  rw [read_write cfg cfg now ha hd]
  refine ⟨rfl, rfl, rfl, ?_, ?_⟩
  · intro p hp
    exact pyLookup_mergeInto_mem truncQ cfg.asym cfg.asym p.1 p.2 hna hp
  · intro p hp
    exact pyLookup_mergeInto_mem truncPair cfg.delay cfg.delay p.1 p.2 hnd hp

/-- C7 witness at a concrete record. -/
theorem C7_write_read_round_trip_witness :
    (∀ p ∈ cfgCal.asym, goodKey p.1) ∧ (∀ p ∈ cfgCal.delay, goodKey p.1) ∧
      (cfgCal.asym.map Prod.fst).Nodup ∧ (cfgCal.delay.map Prod.fst).Nodup ∧
      ((read_config cfgCal (write_config ("ts".toList) cfgCal)).1 = none ∧
      (read_config cfgCal (write_config ("ts".toList) cfgCal)).2.delta1 =
        round1 cfgCal.delta1 ∧
      (read_config cfgCal (write_config ("ts".toList) cfgCal)).2.delta2 =
        round1 cfgCal.delta2 ∧
      (∀ p ∈ cfgCal.asym,
        pyLookup (read_config cfgCal
            (write_config ("ts".toList) cfgCal)).2.asym p.1 =
          some (truncQ p.2)) ∧
      (∀ p ∈ cfgCal.delay,
        pyLookup (read_config cfgCal
            (write_config ("ts".toList) cfgCal)).2.delay p.1 =
          some (truncPair p.2))) :=
  ⟨by decide, by decide, by decide, by decide,
    C7_write_read_round_trip cfgCal ("ts".toList) (by decide) (by decide)
      (by decide) (by decide)⟩

end WRCal
